import Mathlib

/-!
# Proxiverse: a shallow embedding of the simulation core

This file embeds the Python sources of the Proxiverse repository
(`entities.py`, `world_engine.py`, `economic_engine.py`, `server.py`)
into Lean 4 and proves properties of the embedded operations.

Modelling conventions:
* Python `int` is `Int`.
* Entity ids are `String` (Python uses uuid strings or caller-supplied ids).
* A Python `dict` keyed by strings whose absent keys read as `0`
  (the agent inventory) is a total function `String → Int`; the code
  deletes zero-valued entries, so "key absent" and "value 0" are
  observationally the same in every reachable flow.
* The world grid `grid[y][x]` (a list of entity objects per cell) is a
  function `Int → Int → List String` holding entity ids; the single
  registry `entities : Dict[str, Entity]` is an insertion-ordered
  `List Entity`, and `entity_positions` is `String → Option (Int × Int)`.
  Python mutates entity objects in place and the grid, the registry and
  all callers alias the same object; we model that sharing by keying the
  grid and the position index by id and routing every object mutation
  through the registry entry with that id.
-/

namespace Proxiverse

/-- Python `str.upper()` (character-wise upper-casing; all keys in this
code base are ASCII). -/
def strUpper (s : String) : String :=
  ⟨s.data.map Char.toUpper⟩

/-- Payload distinguishing the two concrete `Entity` subclasses in
`entities.py`: `Agent` (has a `name` and an `inventory`) and `Resource`
(has a `resource_type` and a `quantity`). The Python code discriminates
them by `hasattr(entity, 'name')` and `hasattr(entity, 'resource_type')`. -/
inductive EntityData where
  | agent (name : String) (inventory : String → Int) : EntityData
  | res (resource_type : String) (quantity : Int) : EntityData

/-- `Entity` from `entities.py`: unique id plus a position in the 2D grid,
extended by the subclass payload. -/
structure Entity where
  id : String
  x : Int
  y : Int
  data : EntityData

/-- `hasattr(entity, 'name')`: the entity is an `Agent`. -/
def Entity.isAgent (e : Entity) : Bool :=
  match e.data with
  | .agent _ _ => true
  | .res _ _ => false

/-- `isinstance(entity, Resource)`, equivalently
`hasattr(entity, 'resource_type')`. -/
def Entity.isResource (e : Entity) : Bool :=
  match e.data with
  | .agent _ _ => false
  | .res _ _ => true

/-- `Entity.move_to(x, y)`. -/
def Entity.moveTo (e : Entity) (x y : Int) : Entity :=
  { e with x := x, y := y }

/-- The `quantity` attribute of a `Resource` (junk value `0` on agents,
where the Python attribute does not exist). -/
def Entity.quantity (e : Entity) : Int :=
  match e.data with
  | .agent _ _ => 0
  | .res _ q => q

/-- The `resource_type` attribute of a `Resource` (junk `""` on agents). -/
def Entity.resourceType (e : Entity) : String :=
  match e.data with
  | .agent _ _ => ""
  | .res t _ => t

/-- `Resource.__init__`: the constructor upper-cases the resource type. -/
def mkResource (entityId : String) (x y : Int) (resource_type : String)
    (quantity : Int) : Entity :=
  { id := entityId, x := x, y := y,
    data := .res (strUpper resource_type) quantity }

/-- `Agent.__init__`: empty inventory. -/
def mkAgent (entityId : String) (x y : Int) (name : String) : Entity :=
  { id := entityId, x := x, y := y,
    data := .agent name (fun _ => 0) }

/-- `Resource.harvest(amount)`: harvests `min(amount, quantity)`, mutating
the quantity, and returns the amount actually harvested. -/
def resourceHarvest (q amount : Int) : Int × Int :=
  let harvested := min amount q
  (q - harvested, harvested)

/-- `Resource.is_depleted()`. -/
def isDepleted (q : Int) : Bool := q ≤ 0

/-! ## Agent inventory (`entities.py`, `Agent`) -/

/-- The agent inventory: total function from (upper-case) resource-type
keys to quantities; absent dict keys read as `0`. -/
def Inventory : Type := String → Int

/-- `Agent.get_inventory_count(resource_type)`:
`self.inventory.get(resource_type.upper(), 0)`. -/
def getInventoryCount (inv : Inventory) (resource_type : String) : Int :=
  inv (strUpper resource_type)

/-- `Agent.add_to_inventory(resource_type, quantity)`: upper-cases the key
and adds (creating the key if absent, i.e. adding to the default `0`). -/
def addToInventory (inv : Inventory) (resource_type : String)
    (quantity : Int) : Inventory :=
  fun s => if s = strUpper resource_type
           then inv (strUpper resource_type) + quantity else inv s

/-- `Agent.remove_from_inventory(resource_type, quantity)`: returns the
updated inventory and the amount actually removed.  The Python guard
`if resource_type not in self.inventory: return 0` is modelled as
`inv key = 0` (zero-valued keys are deleted by the code itself, so a
present key is never 0 in any reachable flow). -/
def removeFromInventory (inv : Inventory) (resource_type : String)
    (quantity : Int) : Inventory × Int :=
  let key := strUpper resource_type
  if inv key = 0 then (inv, 0)
  else
    let removed := min quantity (inv key)
    (fun s => if s = key then inv key - removed else inv s, removed)

/-! ## `EconomicEngine.craft_component` (`economic_engine.py`) -/

/-- `EconomicEngine.craft_component(agent)`: succeeds iff the inventory has
at least 1 ORE and 1 FUEL; on success removes 1 of each and adds 1
COMPONENTS.  Returns the updated inventory and the success flag. -/
def craftComponent (inv : Inventory) : Inventory × Bool :=
  let ore_count := getInventoryCount inv "ORE"
  let fuel_count := getInventoryCount inv "FUEL"
  if ore_count ≥ 1 ∧ fuel_count ≥ 1 then
    let inv1 := (removeFromInventory inv "ORE" 1).1
    let inv2 := (removeFromInventory inv1 "FUEL" 1).1
    let inv3 := addToInventory inv2 "COMPONENTS" 1
    (inv3, true)
  else (inv, false)

/-- Iterate `craft_component` `n` times; returns the final inventory and
the number of successful crafts. -/
def craftN (inv : Inventory) : Nat → Inventory × Nat
  | 0 => (inv, 0)
  | n + 1 =>
    let step := craftComponent inv
    let rest := craftN step.1 n
    (rest.1, (if step.2 then 1 else 0) + rest.2)

/-! ## `EconomicEngine.should_spawn_resources` (`economic_engine.py`) -/

/-- `EconomicEngine.should_spawn_resources()`: increments the tick counter;
when it reaches `spawn_interval` the counter resets to 0 and the call
returns `true`.  State is the counter value. -/
def shouldSpawnResources (counter spawn_interval : Int) : Int × Bool :=
  let counter' := counter + 1
  if counter' ≥ spawn_interval then (0, true) else (counter', false)

/-- Counter value after `n` calls of `should_spawn_resources`, starting
from a freshly constructed engine (`spawn_tick_counter = 0`). -/
def spawnCounterAfter (spawn_interval : Int) : Nat → Int
  | 0 => 0
  | n + 1 => (shouldSpawnResources (spawnCounterAfter spawn_interval n) spawn_interval).1

/-- Result of the `n`-th call (1-indexed) of `should_spawn_resources`
starting from a fresh engine. -/
def spawnCallResult (spawn_interval : Int) (n : Nat) : Bool :=
  (shouldSpawnResources (spawnCounterAfter spawn_interval (n - 1)) spawn_interval).2

/-! ## `WorldEngine` (`world_engine.py`) -/

/-- The `WorldEngine` state: dimensions, the grid `grid[y][x]` (cell lists
of entity ids), the registry `entities` (insertion-ordered, like a Python
dict) and the position index `entity_positions`. -/
structure World where
  width : Int
  height : Int
  grid : Int → Int → List String
  entities : List Entity
  entity_positions : String → Option (Int × Int)

/-- `WorldEngine.__init__(width, height)`: empty grid, empty registry,
empty position index. -/
def mkWorld (width height : Int) : World :=
  { width := width, height := height,
    grid := fun _ _ => [],
    entities := [],
    entity_positions := fun _ => none }

/-- `WorldEngine.is_valid_position(x, y)`:
`0 <= x < self.width and 0 <= y < self.height`. -/
def World.isValidPosition (w : World) (x y : Int) : Bool :=
  decide (0 ≤ x ∧ x < w.width ∧ 0 ≤ y ∧ y < w.height)

/-- Registry lookup `self.entities[id]` / membership `id in self.entities`;
the Python dict has unique keys, so `find?` of the first match models it. -/
def World.findEntity (w : World) (i : String) : Option Entity :=
  w.entities.find? (fun e => e.id = i)

/-- `WorldEngine.add_entity(entity, x, y)`.  Returns the updated world,
the (possibly mutated) entity the caller still holds, and the success
flag.  On the success path the code first mutates the entity
(`entity.move_to(x, y)`), then appends to the grid cell, the registry
and the position index. -/
def World.addEntity (w : World) (e : Entity) (x y : Int) :
    World × Entity × Bool :=
  if w.isValidPosition x y = false then (w, e, false)
  else if (w.findEntity e.id).isSome then (w, e, false)
  else
    let e' := e.moveTo x y
    ({ w with
       grid := fun a b => if a = x ∧ b = y then w.grid a b ++ [e.id]
                          else w.grid a b,
       entities := w.entities ++ [e'],
       entity_positions := fun j => if j = e.id then some (x, y)
                                    else w.entity_positions j },
     e', true)

/-- `WorldEngine.remove_entity(entity)`, taking the entity's id (callers
pass the registry-aliased object).  The inner `match` on
`entity_positions` mirrors `self.entity_positions[entity.id]`; its `none`
branch is unreachable from reachable states (Python would raise
`KeyError`) because the registry and the index always share key sets.
`if entity in self.grid[y][x]: .remove(entity)` is `List.erase`, which
removes the first occurrence when present and is the identity
otherwise. -/
def World.removeEntity (w : World) (i : String) : World × Bool :=
  if (w.findEntity i).isNone then (w, false)
  else
    match w.entity_positions i with
    | none => (w, false)
    | some (x, y) =>
      ({ w with
         grid := fun a b => if a = x ∧ b = y then (w.grid a b).erase i
                            else w.grid a b,
         entities := w.entities.eraseP (fun e => e.id = i),
         entity_positions := fun j => if j = i then none
                                      else w.entity_positions j },
       true)

/-- `WorldEngine.move_entity(entity, new_x, new_y)`, taking the entity's
id.  On success: `self.grid[old_y][old_x].remove(entity)`, append to the
new cell, `entity.move_to(new_x, new_y)` (a mutation of the shared object,
modelled as a registry update) and the index update.  The `none` branch of
the inner `match` is unreachable from reachable states (Python `KeyError`),
as for `removeEntity`. -/
def World.moveEntity (w : World) (i : String) (new_x new_y : Int) :
    World × Bool :=
  if w.isValidPosition new_x new_y = false then (w, false)
  else if (w.findEntity i).isNone then (w, false)
  else
    match w.entity_positions i with
    | none => (w, false)
    | some (old_x, old_y) =>
      let g1 := fun a b => if a = old_x ∧ b = old_y then (w.grid a b).erase i
                           else w.grid a b
      let g2 := fun a b => if a = new_x ∧ b = new_y then g1 a b ++ [i]
                           else g1 a b
      ({ w with
         grid := g2,
         entities := w.entities.map
           (fun e => if e.id = i then e.moveTo new_x new_y else e),
         entity_positions := fun j => if j = i then some (new_x, new_y)
                                      else w.entity_positions j },
       true)

/-- `WorldEngine.get_entity_at(x, y)`: empty list on invalid positions,
otherwise (a copy of) the cell list. -/
def World.getEntityAt (w : World) (x y : Int) : List String :=
  if w.isValidPosition x y = false then [] else w.grid x y

/-- `len(self.world_engine.get_entities_by_type(Resource))`. -/
def World.resourceCount (w : World) : Nat :=
  (w.entities.filter Entity.isResource).length

/-- Apply `f` to the registry entry with id `i` (a Python in-place mutation
of the shared entity object). -/
def World.updateEntity (w : World) (i : String) (f : Entity → Entity) :
    World :=
  { w with entities := w.entities.map (fun e => if e.id = i then f e else e) }

/-- Overwrite a resource's `quantity` (`self.quantity -= harvested`);
identity on agents, where the mutation never happens. -/
def Entity.withQuantity (e : Entity) (q : Int) : Entity :=
  { e with data := match e.data with
                   | .res rt _ => .res rt q
                   | d => d }

/-- `agent.add_to_inventory(...)` as a mutation of the agent entity;
identity on resources, where the mutation never happens. -/
def Entity.addInv (e : Entity) (resource_type : String) (amt : Int) :
    Entity :=
  { e with data := match e.data with
                   | .agent nm inv => .agent nm (addToInventory inv resource_type amt)
                   | d => d }

/-! ## Agent actions (`entities.py`, `Agent.move` / `Agent.harvest`)

The Python methods receive `self`, an object aliased with the registry
entry of the same id; the embedding takes the id and reads `self` from the
registry.  The `none` lookup branches are unreachable: every caller in the
repository passes an agent object it previously added to the world. -/

/-- `Agent.move(world_engine, dx, dy)`: target from the agent's own
coordinates; fail when out of bounds or when any entity at the target has
a `name` attribute (is an Agent); otherwise call
`world_engine.move_entity` (ignoring its result) and return `True`. -/
def agentMove (w : World) (i : String) (dx dy : Int) : World × Bool :=
  match w.findEntity i with
  | none => (w, false)
  | some a =>
    let new_x := a.x + dx
    let new_y := a.y + dy
    if w.isValidPosition new_x new_y = false then (w, false)
    else
      let entities_at_target := w.getEntityAt new_x new_y
      if entities_at_target.any (fun j =>
           match w.findEntity j with
           | some e => e.isAgent
           | none => false)
      then (w, false)
      else ((w.moveEntity i new_x new_y).1, true)

/-- The `for entity in entities_here` loop of `Agent.harvest`: for the
first entity with `resource_type` and `harvest` attributes, harvest up to
10 units (the mutation `entity.harvest(10)` happens even when it yields
nothing); if something was harvested, credit the inventory, remove the
resource when depleted, and return `True`; otherwise continue. -/
def harvestLoop (agentId : String) : World → List String → World × Bool
  | w, [] => (w, false)
  | w, j :: rest =>
    match w.findEntity j with
    | none => harvestLoop agentId w rest
    | some e =>
      match e.data with
      | .agent _ _ => harvestLoop agentId w rest
      | .res rt q =>
        let step := resourceHarvest q 10
        let w1 := w.updateEntity j (fun e0 => e0.withQuantity step.1)
        if step.2 > 0 then
          let w2 := w1.updateEntity agentId (fun e0 => e0.addInv rt step.2)
          let w3 := if isDepleted step.1 then (w2.removeEntity j).1 else w2
          (w3, true)
        else harvestLoop agentId w1 rest

/-- `Agent.harvest(world_engine)`: iterate over (a copy of) the cell list
at the agent's own coordinates. -/
def agentHarvest (w : World) (i : String) : World × Bool :=
  match w.findEntity i with
  | none => (w, false)
  | some a => harvestLoop i w (w.getEntityAt a.x a.y)

/-! ## `Server.register_client` (`server.py`) -/

/-- `Server.register_client(websocket)`: spawn at the world's centre cell
(`width // 2`, `height // 2`, Python floor division), create an agent
named after the connection count, and `add_entity` it (result ignored).
The fresh uuid is the `agentId` argument. -/
def registerClient (w : World) (agentId : String) (numConnections : Nat) :
    World × String :=
  let spawn_x := Int.fdiv w.width 2
  let spawn_y := Int.fdiv w.height 2
  let agent := mkAgent agentId spawn_x spawn_y
    ("RemoteAgent_" ++ toString (numConnections + 1))
  let w' := (w.addEntity agent spawn_x spawn_y).1
  (w', agentId)

/-! ## `EconomicEngine.spawn_resources` (`economic_engine.py`) -/

/-- The empty-cell enumeration of `spawn_resources`:
`for x in range(width): for y in range(height): if not get_entity_at(x,y)`. -/
def World.emptyCells (w : World) : List (Int × Int) :=
  (List.range w.width.toNat).flatMap (fun (x : Nat) =>
    (List.range w.height.toNat).filterMap (fun (y : Nat) =>
      if (w.getEntityAt (x : Int) (y : Int)).isEmpty
      then some ((x : Int), (y : Int)) else none))

/-- The spawn loop of `spawn_resources`: at step `k`, pick a cell from the
remaining empty-cells list (`random.choice` modelled by an arbitrary index
stream `rc`, reduced mod the list length so every possible choice is
covered), remove it from the list, draw a type from {ORE, FUEL} (`rt`) and
a quantity uniform in [20, 100] (`20 + rq k % 81`), and `add_entity` a
fresh resource (its uuid supplied by the stream `ids`). -/
def spawnLoop (ids : Nat → String) (rc rq : Nat → Nat) (rt : Nat → Bool) :
    Nat → World → List (Int × Int) → Nat → World
  | _, w, _, 0 => w
  | k, w, cells, n + 1 =>
    let c := cells.getD (rc k % cells.length) (0, 0)
    let cells' := cells.erase c
    let ty := if rt k then "ORE" else "FUEL"
    let q : Int := 20 + ((rq k % 81 : Nat) : Int)
    let r := mkResource (ids k) c.1 c.2 ty q
    let w' := (w.addEntity r c.1 c.2).1
    spawnLoop ids rc rq rt (k + 1) w' cells' n

/-- `EconomicEngine.spawn_resources(max_resources = 50)`: no-op at or
above the cap or when no cell is empty; otherwise run the spawn loop
`min(max_resources - current, len(empty_cells))` times. -/
def spawnResources (w : World) (max_resources : Int)
    (ids : Nat → String) (rc rq : Nat → Nat) (rt : Nat → Bool) : World :=
  let current : Int := w.resourceCount
  if current ≥ max_resources then w
  else
    let empty_cells := w.emptyCells
    if empty_cells.isEmpty then w
    else
      let n := min (max_resources - current) (empty_cells.length : Int)
      spawnLoop ids rc rq rt 0 w empty_cells n.toNat

/-! ## Operation sequences over the world (for the global invariant) -/

/-- One `WorldEngine` mutator call. -/
inductive Op where
  | add (e : Entity) (x y : Int) : Op
  | move (i : String) (x y : Int) : Op
  | remove (i : String) : Op

/-- Apply one mutator. -/
def applyOp (w : World) : Op → World
  | .add e x y => (w.addEntity e x y).1
  | .move i x y => (w.moveEntity i x y).1
  | .remove i => (w.removeEntity i).1

/-- Apply a call sequence left to right. -/
def applyOps (w : World) : List Op → World
  | [] => w
  | op :: rest => applyOps (applyOp w op) rest

/-! ## Concrete sample data (used by witnesses) -/

/-- A concrete inventory holding 3 ORE and 2 FUEL. -/
def sampleInv : Inventory :=
  fun s => if s = "ORE" then 3 else if s = "FUEL" then 2 else 0

/-- A concrete agent used by witnesses. -/
def agentA : Entity := mkAgent "agent-a" 0 0 "Alpha"

/-- A second concrete agent used by witnesses. -/
def agentB : Entity := mkAgent "agent-b" 0 0 "Beta"

/-- A concrete small ore deposit used by witnesses. -/
def oreSmall : Entity := mkResource "ore-small" 0 0 "ORE" 7

/-- A concrete depleted (zero-quantity) ore deposit used by
counterexamples. -/
def oreZero : Entity := mkResource "ore-zero" 0 0 "ORE" 0

/-- An injective stream of fresh uuids used by witnesses. -/
def sampleIds : Nat → String := fun k => ⟨List.replicate k 'r'⟩

/-! ## The grid/registry/index consistency invariant -/

/-- The consistency invariant tying the grid, the registry and the
position index of a `WorldEngine` together: the registry and the index
share key sets, registry ids are unique, every indexed position is in
bounds, the cell at an id's indexed position holds that id exactly once,
any cell holding an id is the id's indexed position, and every registry
entry's own coordinates agree with the index. -/
structure WorldInv (w : World) : Prop where
  keys : ∀ i, (w.findEntity i).isSome ↔ (w.entity_positions i).isSome
  nodup : (w.entities.map Entity.id).Nodup
  valid : ∀ i x y, w.entity_positions i = some (x, y) →
    w.isValidPosition x y = true
  count_one : ∀ i x y, w.entity_positions i = some (x, y) →
    (w.grid x y).count i = 1
  pos_of_mem : ∀ i x y, i ∈ w.grid x y →
    w.entity_positions i = some (x, y)
  coords : ∀ e, e ∈ w.entities →
    w.entity_positions e.id = some (e.x, e.y)

/-! ## Characterization of the three `WorldEngine` mutators -/

lemma addEntity_fail_invalid (w : World) (e : Entity) (x y : Int)
    (hv : w.isValidPosition x y = false) :
    w.addEntity e x y = (w, e, false) := by
  unfold World.addEntity
  rw [if_pos hv]

lemma addEntity_fail_dup (w : World) (e : Entity) (x y : Int)
    (hv : w.isValidPosition x y = true)
    (hr : (w.findEntity e.id).isSome = true) :
    w.addEntity e x y = (w, e, false) := by
  unfold World.addEntity
  rw [if_neg (by simp [hv]), if_pos hr]

lemma addEntity_succ (w : World) (e : Entity) (x y : Int)
    (hv : w.isValidPosition x y = true) (hr : w.findEntity e.id = none) :
    w.addEntity e x y =
      ({ w with
         grid := fun a b => if a = x ∧ b = y then w.grid a b ++ [e.id]
                            else w.grid a b,
         entities := w.entities ++ [e.moveTo x y],
         entity_positions := fun j => if j = e.id then some (x, y)
                                      else w.entity_positions j },
       e.moveTo x y, true) := by
  unfold World.addEntity
  rw [if_neg (by simp [hv]), if_neg (by simp [hr])]

lemma removeEntity_fail (w : World) (i : String)
    (hr : w.findEntity i = none) :
    w.removeEntity i = (w, false) := by
  unfold World.removeEntity
  rw [if_pos (by simp [hr])]

lemma removeEntity_succ (w : World) (i : String) (x y : Int)
    (hr : (w.findEntity i).isSome = true)
    (hp : w.entity_positions i = some (x, y)) :
    w.removeEntity i =
      ({ w with
         grid := fun a b => if a = x ∧ b = y then (w.grid a b).erase i
                            else w.grid a b,
         entities := w.entities.eraseP (fun e => e.id = i),
         entity_positions := fun j => if j = i then none
                                      else w.entity_positions j },
       true) := by
  have hnn : ¬ (w.findEntity i).isNone = true := by
    simp [Option.isNone_iff_eq_none]
    intro hcon
    rw [hcon] at hr
    simp at hr
  unfold World.removeEntity
  rw [if_neg hnn, hp]

lemma moveEntity_fail_invalid (w : World) (i : String) (nx ny : Int)
    (hv : w.isValidPosition nx ny = false) :
    w.moveEntity i nx ny = (w, false) := by
  unfold World.moveEntity
  rw [if_pos hv]

lemma moveEntity_fail_unknown (w : World) (i : String) (nx ny : Int)
    (hv : w.isValidPosition nx ny = true)
    (hr : w.findEntity i = none) :
    w.moveEntity i nx ny = (w, false) := by
  unfold World.moveEntity
  rw [if_neg (by simp [hv]), if_pos (by simp [hr])]

lemma moveEntity_succ (w : World) (i : String) (nx ny ox oy : Int)
    (hv : w.isValidPosition nx ny = true)
    (hr : (w.findEntity i).isSome = true)
    (hp : w.entity_positions i = some (ox, oy)) :
    w.moveEntity i nx ny =
      ({ w with
         grid := fun a b =>
           if a = nx ∧ b = ny
           then (if a = ox ∧ b = oy then (w.grid a b).erase i
                 else w.grid a b) ++ [i]
           else (if a = ox ∧ b = oy then (w.grid a b).erase i
                 else w.grid a b),
         entities := w.entities.map
           (fun e => if e.id = i then e.moveTo nx ny else e),
         entity_positions := fun j => if j = i then some (nx, ny)
                                      else w.entity_positions j },
       true) := by
  have hnn : ¬ (w.findEntity i).isNone = true := by
    simp [Option.isNone_iff_eq_none]
    intro hcon
    rw [hcon] at hr
    simp at hr
  unfold World.moveEntity
  rw [if_neg (by simp [hv]), if_neg hnn, hp]

/-! ## Preservation of the invariant -/

lemma findEntity_none_iff (w : World) (i : String) :
    w.findEntity i = none ↔ ∀ e ∈ w.entities, e.id ≠ i := by
  unfold World.findEntity
  rw [List.find?_eq_none]
  simp

lemma pos_none_of_find_none {w : World} (h : WorldInv w) {i : String}
    (hrn : w.findEntity i = none) : w.entity_positions i = none := by
  rcases hpos : w.entity_positions i with _ | p
  · rfl
  · have hs : (w.findEntity i).isSome = true :=
      (h.keys i).mpr (by rw [hpos]; rfl)
    rw [hrn] at hs
    simp at hs

lemma count_zero_of_pos_none {w : World} (h : WorldInv w) {i : String}
    (hp : w.entity_positions i = none) (x y : Int) :
    (w.grid x y).count i = 0 := by
  rw [List.count_eq_zero]
  intro hm
  have hc := h.pos_of_mem i x y hm
  rw [hp] at hc
  exact Option.noConfusion hc

lemma mkWorld_inv (width height : Int) : WorldInv (mkWorld width height) := by
  constructor
  · intro i
    simp [mkWorld, World.findEntity]
  · simp [mkWorld]
  · intro i x y hp
    simp [mkWorld] at hp
  · intro i x y hp
    simp [mkWorld] at hp
  · intro i x y hm
    simp [mkWorld] at hm
  · intro e he
    simp [mkWorld] at he

lemma find?_eraseP_ne (l : List Entity) (i j : String) (hne : j ≠ i) :
    (l.eraseP (fun e => e.id = i)).find? (fun e => e.id = j)
      = l.find? (fun e => e.id = j) := by
  induction l with
  | nil => rfl
  | cons a l ih =>
    by_cases hai : a.id = i
    · have haj : ¬ a.id = j := fun hc => hne (by rw [← hc, hai])
      rw [List.eraseP_cons_of_pos (by simp [hai])]
      rw [List.find?_cons_of_neg _ (by simp [haj])]
    · rw [List.eraseP_cons_of_neg (by simp [hai])]
      by_cases haj : a.id = j
      · rw [List.find?_cons_of_pos _ (by simp [haj]),
          List.find?_cons_of_pos _ (by simp [haj])]
      · rw [List.find?_cons_of_neg _ (by simp [haj]),
          List.find?_cons_of_neg _ (by simp [haj])]
        exact ih

lemma find?_eraseP_self (l : List Entity) (i : String)
    (hnd : (l.map Entity.id).Nodup) :
    (l.eraseP (fun e => e.id = i)).find? (fun e => e.id = i) = none := by
  induction l with
  | nil => rfl
  | cons a l ih =>
    simp only [List.map_cons, List.nodup_cons] at hnd
    by_cases hai : a.id = i
    · rw [List.eraseP_cons_of_pos (by simp [hai])]
      rw [List.find?_eq_none]
      intro e he
      simp only [decide_eq_true_eq]
      intro hc
      exact hnd.1 (by rw [hai, ← hc]; exact List.mem_map_of_mem _ he)
    · rw [List.eraseP_cons_of_neg (by simp [hai])]
      rw [List.find?_cons_of_neg _ (by simp [hai])]
      exact ih hnd.2

lemma mem_eraseP_id_ne (l : List Entity) (i : String)
    (hnd : (l.map Entity.id).Nodup) (e' : Entity)
    (hm : e' ∈ l.eraseP (fun e => e.id = i)) : e'.id ≠ i := by
  intro hc
  have hn := find?_eraseP_self l i hnd
  rw [List.find?_eq_none] at hn
  exact hn e' hm (by simp [hc])

lemma find?_map_id_pres (l : List Entity) (f : Entity → Entity)
    (hf : ∀ e, (f e).id = e.id) (j : String) :
    (l.map f).find? (fun e => e.id = j)
      = (l.find? (fun e => e.id = j)).map f := by
  have hcomp : ((fun e : Entity => decide (e.id = j)) ∘ f)
      = fun e : Entity => decide (e.id = j) := by
    funext e
    simp [Function.comp, hf]
  rw [List.find?_map, hcomp]

theorem addEntity_preserves_inv {w : World} (h : WorldInv w) (e : Entity)
    (x y : Int) : WorldInv (w.addEntity e x y).1 := by
  by_cases hv : w.isValidPosition x y = true
  · by_cases hr : (w.findEntity e.id).isSome = true
    · rw [addEntity_fail_dup w e x y hv hr]
      exact h
    · have hrn : w.findEntity e.id = none := by
        rcases hfe : w.findEntity e.id with _ | v
        · rfl
        · rw [hfe] at hr
          simp at hr
      have hids : ∀ e' ∈ w.entities, e'.id ≠ e.id :=
        (findEntity_none_iff w e.id).mp hrn
      have hposn : w.entity_positions e.id = none :=
        pos_none_of_find_none h hrn
      rw [addEntity_succ w e x y hv hrn]
      have hfind : ∀ i, ((w.entities ++ [e.moveTo x y]).find?
          (fun e' => e'.id = i))
          = (w.findEntity i).or
              (if e.id = i then some (e.moveTo x y) else none) := by
        intro i
        rw [List.find?_append]
        unfold World.findEntity
        congr 1
        simp only [List.find?]
        by_cases hie : e.id = i
        · simp [Entity.moveTo, hie]
        · simp [Entity.moveTo, hie]
      constructor
      · -- keys
        intro i
        show ((w.entities ++ [e.moveTo x y]).find? (fun e' => e'.id = i)).isSome
          ↔ (if i = e.id then some (x, y) else w.entity_positions i).isSome
        rw [hfind i]
        by_cases hie : i = e.id
        · subst hie
          rw [hrn]
          simp
        · rw [if_neg hie, if_neg (fun hc => hie hc.symm)]
          simp [h.keys i]
      · -- nodup
        show ((w.entities ++ [e.moveTo x y]).map Entity.id).Nodup
        rw [List.map_append]
        refine List.Nodup.append h.nodup (by simp) ?_
        intro a ha hb
        simp only [List.map_cons, List.map_nil, List.mem_singleton] at hb
        simp only [List.mem_map] at ha
        rcases ha with ⟨e', he', rfl⟩
        exact hids e' he' (by simpa [Entity.moveTo] using hb)
      · -- valid
        intro i x' y' hp
        simp only at hp
        by_cases hie : i = e.id
        · rw [if_pos hie] at hp
          rcases Option.some.inj hp with hxy
          cases hxy
          exact hv
        · rw [if_neg hie] at hp
          exact h.valid i x' y' hp
      · -- count_one
        intro i x' y' hp
        simp only at hp ⊢
        by_cases hie : i = e.id
        · rw [if_pos hie] at hp
          rcases Option.some.inj hp with hxy
          cases hxy
          subst hie
          rw [if_pos ⟨rfl, rfl⟩, List.count_append]
          rw [count_zero_of_pos_none h hposn x y]
          simp
        · rw [if_neg hie] at hp
          by_cases hcell : x' = x ∧ y' = y
          · rw [if_pos hcell, List.count_append]
            have : [e.id].count i = 0 := by
              simp [List.count_singleton]
              exact fun hc => hie hc.symm
            rw [this, h.count_one i x' y' hp]
          · rw [if_neg hcell]
            exact h.count_one i x' y' hp
      · -- pos_of_mem
        intro i x' y' hm
        simp only at hm ⊢
        by_cases hcell : x' = x ∧ y' = y
        · rw [if_pos hcell] at hm
          rcases List.mem_append.mp hm with hmo | hms
          · have hpo := h.pos_of_mem i x' y' hmo
            have hie : ¬ i = e.id := by
              intro hc
              subst hc
              rw [hposn] at hpo
              exact Option.noConfusion hpo
            rw [if_neg hie]
            exact hpo
          · have hie : i = e.id := by simpa using hms
            rw [if_pos hie]
            rcases hcell with ⟨hx, hy⟩
            rw [hx, hy]
        · rw [if_neg hcell] at hm
          have hpo := h.pos_of_mem i x' y' hm
          have hie : ¬ i = e.id := by
            intro hc
            subst hc
            rw [hposn] at hpo
            exact Option.noConfusion hpo
          rw [if_neg hie]
          exact hpo
      · -- coords
        intro e' he'
        simp only at he' ⊢
        rcases List.mem_append.mp he' with hmo | hms
        · have hco := h.coords e' hmo
          rw [if_neg (hids e' hmo)]
          exact hco
        · have he : e' = e.moveTo x y := by simpa using hms
          subst he
          simp [Entity.moveTo]
  · have hvf : w.isValidPosition x y = false := by
      simpa using hv
    rw [addEntity_fail_invalid w e x y hvf]
    exact h

theorem removeEntity_preserves_inv {w : World} (h : WorldInv w)
    (i : String) : WorldInv (w.removeEntity i).1 := by
  by_cases hr : (w.findEntity i).isSome = true
  · have hps : (w.entity_positions i).isSome = true := (h.keys i).mp hr
    rcases hpos : w.entity_positions i with _ | p
    · rw [hpos] at hps
      simp at hps
    · rcases p with ⟨x, y⟩
      rw [removeEntity_succ w i x y hr hpos]
      constructor
      · intro j
        show ((w.entities.eraseP (fun e => e.id = i)).find?
            (fun e => e.id = j)).isSome
          ↔ (if j = i then none else w.entity_positions j).isSome
        by_cases hji : j = i
        · subst hji
          rw [find?_eraseP_self _ _ h.nodup, if_pos rfl]
          exact Iff.rfl
        · rw [find?_eraseP_ne _ _ _ hji, if_neg hji]
          exact h.keys j
      · show ((w.entities.eraseP (fun e => e.id = i)).map Entity.id).Nodup
        exact h.nodup.sublist ((List.eraseP_sublist _).map Entity.id)
      · intro j x' y' hp
        simp only at hp
        by_cases hji : j = i
        · rw [if_pos hji] at hp
          exact Option.noConfusion hp
        · rw [if_neg hji] at hp
          exact h.valid j x' y' hp
      · intro j x' y' hp
        simp only at hp ⊢
        by_cases hji : j = i
        · rw [if_pos hji] at hp
          exact Option.noConfusion hp
        · rw [if_neg hji] at hp
          by_cases hcell : x' = x ∧ y' = y
          · rw [if_pos hcell, List.count_erase_of_ne hji _]
            exact h.count_one j x' y' hp
          · rw [if_neg hcell]
            exact h.count_one j x' y' hp
      · intro j x' y' hm
        simp only at hm ⊢
        by_cases hcell : x' = x ∧ y' = y
        · obtain ⟨hx, hy⟩ := hcell
          subst hx
          subst hy
          rw [if_pos ⟨rfl, rfl⟩] at hm
          have hji : ¬ j = i := by
            intro hc
            subst hc
            have h0 : ((w.grid x' y').erase j).count j = 0 := by
              rw [List.count_erase_self, h.count_one j x' y' hpos]
            rw [List.count_eq_zero] at h0
            exact h0 hm
          rw [if_neg hji]
          exact h.pos_of_mem j x' y' (List.mem_of_mem_erase hm)
        · rw [if_neg hcell] at hm
          have hpj := h.pos_of_mem j x' y' hm
          have hji : ¬ j = i := by
            intro hc
            subst hc
            rw [hpos] at hpj
            have hxy := Prod.ext_iff.mp (Option.some.inj hpj)
            exact hcell ⟨hxy.1.symm, hxy.2.symm⟩
          rw [if_neg hji]
          exact hpj
      · intro e' he'
        simp only at he' ⊢
        have hmem : e' ∈ w.entities := (List.eraseP_sublist _).subset he'
        have hne : e'.id ≠ i := mem_eraseP_id_ne _ _ h.nodup e' he'
        rw [if_neg hne]
        exact h.coords e' hmem
  · have hrn : w.findEntity i = none := by
      rcases hfe : w.findEntity i with _ | v
      · rfl
      · rw [hfe] at hr
        simp at hr
    rw [removeEntity_fail w i hrn]
    exact h

theorem moveEntity_preserves_inv {w : World} (h : WorldInv w)
    (i : String) (nx ny : Int) : WorldInv (w.moveEntity i nx ny).1 := by
  by_cases hv : w.isValidPosition nx ny = true
  · by_cases hr : (w.findEntity i).isSome = true
    · have hps : (w.entity_positions i).isSome = true := (h.keys i).mp hr
      rcases hpos : w.entity_positions i with _ | p
      · rw [hpos] at hps
        simp at hps
      · rcases p with ⟨ox, oy⟩
        rw [moveEntity_succ w i nx ny ox oy hv hr hpos]
        have hfid : ∀ e : Entity,
            ((fun e => if e.id = i then e.moveTo nx ny else e) e).id
              = e.id := by
          intro e
          by_cases hc : e.id = i <;> simp [Entity.moveTo, hc]
        have hnotmem : ∀ a b, ¬ (a = ox ∧ b = oy) → i ∉ w.grid a b := by
          intro a b hc hm
          have hp := h.pos_of_mem i a b hm
          rw [hpos] at hp
          have hxy := Prod.ext_iff.mp (Option.some.inj hp)
          exact hc ⟨hxy.1.symm, hxy.2.symm⟩
        have herase0 : ((w.grid ox oy).erase i).count i = 0 := by
          rw [List.count_erase_self, h.count_one i ox oy hpos]
        constructor
        · intro j
          show (((w.entities.map
              (fun e => if e.id = i then e.moveTo nx ny else e)).find?
              (fun e => e.id = j))).isSome
            ↔ (if j = i then some (nx, ny)
               else w.entity_positions j).isSome
          rw [find?_map_id_pres _ _ hfid]
          by_cases hji : j = i
          · subst hji
            rw [if_pos rfl]
            rw [Option.isSome_map']
            rw [show (w.entities.find? (fun e => e.id = j))
                = w.findEntity j from rfl, hr]
            simp
          · rw [if_neg hji]
            rw [Option.isSome_map']
            exact h.keys j
        · show (((w.entities.map
            (fun e => if e.id = i then e.moveTo nx ny else e)).map
            Entity.id)).Nodup
          have hcomp : (Entity.id ∘
              (fun e : Entity => if e.id = i then e.moveTo nx ny else e))
              = Entity.id := by
            funext e
            simp [Function.comp, hfid e]
          rw [List.map_map, hcomp]
          exact h.nodup
        · intro j x' y' hp
          simp only at hp
          by_cases hji : j = i
          · rw [if_pos hji] at hp
            have hxy : nx = x' ∧ ny = y' := by simpa using hp
            obtain ⟨h1, h2⟩ := hxy
            subst h1
            subst h2
            exact hv
          · rw [if_neg hji] at hp
            exact h.valid j x' y' hp
        · intro j x' y' hp
          simp only at hp ⊢
          by_cases hji : j = i
          · subst hji
            rw [if_pos rfl] at hp
            have hxy : nx = x' ∧ ny = y' := by simpa using hp
            obtain ⟨h1, h2⟩ := hxy
            subst h1
            subst h2
            rw [if_pos ⟨rfl, rfl⟩, List.count_append]
            have hone : [j].count j = 1 := by simp
            rw [hone]
            by_cases hold : nx = ox ∧ ny = oy
            · obtain ⟨h1, h2⟩ := hold
              subst h1
              subst h2
              rw [if_pos ⟨rfl, rfl⟩, herase0]
            · rw [if_neg hold]
              have : (w.grid nx ny).count j = 0 := by
                rw [List.count_eq_zero]
                exact hnotmem nx ny hold
              rw [this]
          · rw [if_neg hji] at hp
            have hcnt : ∀ a b, (if a = ox ∧ b = oy
                then (w.grid a b).erase i else w.grid a b).count j
                = (w.grid a b).count j := by
              intro a b
              by_cases hold : a = ox ∧ b = oy
              · rw [if_pos hold, List.count_erase_of_ne hji]
              · rw [if_neg hold]
            by_cases hnew : x' = nx ∧ y' = ny
            · rw [if_pos hnew, List.count_append, hcnt]
              have hz : [i].count j = 0 := by
                simp [List.count_singleton]
                exact fun hc => hji hc.symm
              rw [hz, h.count_one j x' y' hp]
            · rw [if_neg hnew, hcnt]
              exact h.count_one j x' y' hp
        · intro j x' y' hm
          simp only at hm ⊢
          by_cases hnew : x' = nx ∧ y' = ny
          · rw [if_pos hnew] at hm
            rcases List.mem_append.mp hm with hg1 | hsing
            · have hji : ¬ j = i := by
                intro hc
                subst hc
                by_cases hold : x' = ox ∧ y' = oy
                · rw [if_pos hold] at hg1
                  obtain ⟨h1, h2⟩ := hold
                  subst h1
                  subst h2
                  exact absurd hg1 (List.count_eq_zero.mp herase0)
                · rw [if_neg hold] at hg1
                  exact hnotmem x' y' hold hg1
              rw [if_neg hji]
              have hg : j ∈ w.grid x' y' := by
                by_cases hold : x' = ox ∧ y' = oy
                · rw [if_pos hold] at hg1
                  exact List.mem_of_mem_erase hg1
                · rw [if_neg hold] at hg1
                  exact hg1
              exact h.pos_of_mem j x' y' hg
            · have hji : j = i := by simpa using hsing
              rw [if_pos hji]
              obtain ⟨h1, h2⟩ := hnew
              rw [h1, h2]
          · rw [if_neg hnew] at hm
            have hji : ¬ j = i := by
              intro hc
              subst hc
              by_cases hold : x' = ox ∧ y' = oy
              · rw [if_pos hold] at hm
                obtain ⟨h1, h2⟩ := hold
                subst h1
                subst h2
                exact absurd hm (List.count_eq_zero.mp herase0)
              · rw [if_neg hold] at hm
                exact hnotmem x' y' hold hm
            rw [if_neg hji]
            have hg : j ∈ w.grid x' y' := by
              by_cases hold : x' = ox ∧ y' = oy
              · rw [if_pos hold] at hm
                exact List.mem_of_mem_erase hm
              · rw [if_neg hold] at hm
                exact hm
            exact h.pos_of_mem j x' y' hg
        · intro e' he'
          simp only at he' ⊢
          rcases List.mem_map.mp he' with ⟨e0, he0, rfl⟩
          by_cases hc : e0.id = i
          · rw [if_pos hc]
            simp [Entity.moveTo, hc]
          · rw [if_neg hc]
            rw [if_neg hc]
            exact h.coords e0 he0
    · have hrn : w.findEntity i = none := by
        rcases hfe : w.findEntity i with _ | v
        · rfl
        · rw [hfe] at hr
          simp at hr
      rw [moveEntity_fail_unknown w i nx ny hv hrn]
      exact h
  · have hvf : w.isValidPosition nx ny = false := by simpa using hv
    rw [moveEntity_fail_invalid w i nx ny hvf]
    exact h

theorem applyOps_preserves_inv {w : World} (h : WorldInv w)
    (ops : List Op) : WorldInv (applyOps w ops) := by
  induction ops generalizing w with
  | nil => exact h
  | cons op rest ih =>
    show WorldInv (applyOps (applyOp w op) rest)
    apply ih
    cases op with
    | add e x y => exact addEntity_preserves_inv h e x y
    | move j x y => exact moveEntity_preserves_inv h j x y
    | remove j => exact removeEntity_preserves_inv h j

/-! ## Lemmas about `craft_component` -/

lemma strUpper_ORE : strUpper "ORE" = "ORE" := rfl

lemma strUpper_FUEL : strUpper "FUEL" = "FUEL" := rfl

lemma strUpper_COMPONENTS : strUpper "COMPONENTS" = "COMPONENTS" := rfl

lemma craft_succeeds_iff (inv : Inventory) :
    (craftComponent inv).2 = true ↔ 1 ≤ inv "ORE" ∧ 1 ≤ inv "FUEL" := by
  by_cases h : 1 ≤ inv "ORE" ∧ 1 ≤ inv "FUEL" <;>
    simp [craftComponent, getInventoryCount, strUpper_ORE, strUpper_FUEL,
      ge_iff_le, h]

lemma craft_fail_eq (inv : Inventory)
    (h : (craftComponent inv).2 = false) : (craftComponent inv).1 = inv := by
  by_cases hc : 1 ≤ inv "ORE" ∧ 1 ≤ inv "FUEL"
  · simp [craftComponent, getInventoryCount, strUpper_ORE, strUpper_FUEL,
      ge_iff_le, hc] at h
  · simp [craftComponent, getInventoryCount, strUpper_ORE, strUpper_FUEL,
      ge_iff_le, hc]

lemma craft_success_spec (inv : Inventory)
    (h1 : 1 ≤ inv "ORE") (h2 : 1 ≤ inv "FUEL") :
    (craftComponent inv).1 "ORE" = inv "ORE" - 1
    ∧ (craftComponent inv).1 "FUEL" = inv "FUEL" - 1
    ∧ (craftComponent inv).1 "COMPONENTS" = inv "COMPONENTS" + 1
    ∧ ∀ s, s ≠ "ORE" → s ≠ "FUEL" → s ≠ "COMPONENTS" →
        (craftComponent inv).1 s = inv s := by
  have hore : ¬ inv "ORE" = 0 := by omega
  have hfuel : ¬ inv "FUEL" = 0 := by omega
  have hminO : min 1 (inv "ORE") = 1 := min_eq_left h1
  have hminF : min 1 (inv "FUEL") = 1 := min_eq_left h2
  refine ⟨?_, ?_, ?_, fun s hO hF hC => ?_⟩
  all_goals simp only [craftComponent, getInventoryCount,
    removeFromInventory, addToInventory, strUpper_ORE, strUpper_FUEL,
    strUpper_COMPONENTS, ge_iff_le, if_pos (And.intro h1 h2)]
  · simp [hore, hfuel, hminO, hminF]
  · simp [hore, hfuel, hminO, hminF]
  · simp [hore, hfuel, hminO, hminF]
  · simp [hore, hfuel, hminO, hminF, hO, hF, hC]

/-! ## Lemmas about `should_spawn_resources` -/

lemma emod_add_one (N : Int) (a : Int) :
    (a + 1) % N = (a % N + 1) % N := by
  rw [Int.add_emod a 1 N, Int.add_emod (a % N) 1 N,
    Int.emod_emod_of_dvd _ dvd_rfl]

lemma spawnCounterAfter_eq (N : Int) (hN : 1 ≤ N) (k : Nat) :
    spawnCounterAfter N k = (k : Int) % N := by
  induction k with
  | zero => simp [spawnCounterAfter]
  | succ k ih =>
    have h0 : 0 ≤ (k : Int) % N := Int.emod_nonneg _ (by omega)
    have h1 : (k : Int) % N < N := Int.emod_lt_of_pos _ (by omega)
    have hcast : ((k + 1 : Nat) : Int) = (k : Int) + 1 := by push_cast; ring
    have hstep : spawnCounterAfter N (k + 1)
        = if (k : Int) % N + 1 ≥ N then 0 else (k : Int) % N + 1 := by
      show (shouldSpawnResources (spawnCounterAfter N k) N).1 = _
      rw [ih]
      simp only [shouldSpawnResources]
      by_cases hc : (k : Int) % N + 1 ≥ N
      · rw [if_pos hc, if_pos hc]
      · rw [if_neg hc, if_neg hc]
    rw [hstep, hcast, emod_add_one]
    by_cases hc : (k : Int) % N + 1 ≥ N
    · have heq : (k : Int) % N + 1 = N := by omega
      rw [if_pos hc, heq, Int.emod_self]
    · have hlt : ((k : Int) % N + 1) % N = (k : Int) % N + 1 :=
        Int.emod_eq_of_lt (by omega) (by omega)
      rw [if_neg hc, hlt]

/-! ## Claim theorems: crafting and the spawn counter -/

/-- C5: `craft_component(agent)` returns `True` iff the inventory holds at
least 1 ORE and at least 1 FUEL; on success it debits exactly 1 ORE and
1 FUEL and credits exactly 1 COMPONENTS, touching no other key; on failure
the inventory is unchanged; and over any number of calls
`ORE_before + FUEL_before = ORE_after + FUEL_after + 2 × successes`. -/
theorem craft_component_correct (inv : Inventory) (n : Nat) :
    ((craftComponent inv).2 = true ↔ 1 ≤ inv "ORE" ∧ 1 ≤ inv "FUEL")
    ∧ ((craftComponent inv).2 = true →
        (craftComponent inv).1 "ORE" = inv "ORE" - 1
        ∧ (craftComponent inv).1 "FUEL" = inv "FUEL" - 1
        ∧ (craftComponent inv).1 "COMPONENTS" = inv "COMPONENTS" + 1
        ∧ ∀ s, s ≠ "ORE" → s ≠ "FUEL" → s ≠ "COMPONENTS" →
            (craftComponent inv).1 s = inv s)
    ∧ ((craftComponent inv).2 = false → (craftComponent inv).1 = inv)
    ∧ inv "ORE" + inv "FUEL"
        = (craftN inv n).1 "ORE" + (craftN inv n).1 "FUEL"
          + 2 * ((craftN inv n).2 : Int) := by
  refine ⟨craft_succeeds_iff inv, ?_, craft_fail_eq inv, ?_⟩
  · intro h
    obtain ⟨h1, h2⟩ := (craft_succeeds_iff inv).mp h
    exact craft_success_spec inv h1 h2
  · induction n generalizing inv with
    | zero => simp [craftN]
    | succ n ih =>
      have hrec : craftN inv (n + 1)
          = ((craftN (craftComponent inv).1 n).1,
             (if (craftComponent inv).2 then 1 else 0)
               + (craftN (craftComponent inv).1 n).2) := rfl
      rw [hrec]
      have ihs := ih (craftComponent inv).1
      rcases hb : (craftComponent inv).2 with _ | _
      · have hinv := craft_fail_eq inv hb
        rw [hinv] at ihs ⊢
        simp only [hb, if_false, Bool.false_eq_true]
        push_cast
        omega
      · obtain ⟨h1, h2⟩ := (craft_succeeds_iff inv).mp hb
        obtain ⟨hO, hF, _, _⟩ := craft_success_spec inv h1 h2
        rw [hO, hF] at ihs
        simp only [hb, if_true]
        push_cast
        omega

/-- C9: counting calls from a fresh engine with `spawn_interval = N ≥ 1`,
`should_spawn_resources` returns `True` exactly on the calls whose index
is a multiple of `N`, and the internal counter after `n` calls is
`n mod N` (so each `True` return resets it to 0). -/
theorem should_spawn_every_nth (N : Int) (n : Nat) (hN : 1 ≤ N)
    (hn : 1 ≤ n) :
    (spawnCallResult N n = true ↔ (n : Int) % N = 0)
    ∧ spawnCounterAfter N n = (n : Int) % N := by
  refine ⟨?_, spawnCounterAfter_eq N hN n⟩
  have h0 : 0 ≤ ((n - 1 : Nat) : Int) % N := Int.emod_nonneg _ (by omega)
  have h1 : ((n - 1 : Nat) : Int) % N < N := Int.emod_lt_of_pos _ (by omega)
  have hcast : ((n : Nat) : Int) = ((n - 1 : Nat) : Int) + 1 := by
    have h : (n - 1) + 1 = n := Nat.succ_pred_eq_of_pos hn
    rw [← h]
    push_cast
    ring
  have hres : spawnCallResult N n
      = if ((n - 1 : Nat) : Int) % N + 1 ≥ N then true else false := by
    show (shouldSpawnResources (spawnCounterAfter N (n - 1)) N).2 = _
    rw [spawnCounterAfter_eq N hN (n - 1)]
    simp only [shouldSpawnResources]
    by_cases hc : ((n - 1 : Nat) : Int) % N + 1 ≥ N
    · rw [if_pos hc, if_pos hc]
    · rw [if_neg hc, if_neg hc]
  rw [hres, hcast, emod_add_one]
  by_cases hc : ((n - 1 : Nat) : Int) % N + 1 ≥ N
  · have heq : ((n - 1 : Nat) : Int) % N + 1 = N := by omega
    rw [if_pos hc, heq, Int.emod_self]
    simp
  · have hlt : (((n - 1 : Nat) : Int) % N + 1) % N
        = ((n - 1 : Nat) : Int) % N + 1 := Int.emod_eq_of_lt (by omega) (by omega)
    rw [if_neg hc, hlt]
    constructor
    · intro h
      simp at h
    · intro h
      omega

/-- Witness for C5 at a concrete inventory holding 3 ORE and 2 FUEL,
crafting twice. -/
theorem craft_component_correct_witness :
    sampleInv "ORE" + sampleInv "FUEL"
      = (craftN sampleInv 2).1 "ORE" + (craftN sampleInv 2).1 "FUEL"
        + 2 * ((craftN sampleInv 2).2 : Int) :=
  (craft_component_correct sampleInv 2).2.2.2

/-- Witness for C9 at the default interval `N = 10`: the 10th call
returns `True` and resets the counter. -/
theorem should_spawn_every_nth_witness :
    spawnCallResult 10 10 = true ∧ spawnCounterAfter 10 10 = 0 := by
  have h := should_spawn_every_nth 10 10 (by norm_num) (by norm_num)
  refine ⟨h.1.mpr (by norm_num), ?_⟩
  rw [h.2]
  norm_num

/-! ## Lemmas about `Agent.move` -/

lemma isAgent_ne_isResource (e : Entity) : e.isAgent = !e.isResource := by
  rcases e with ⟨i2, x2, y2, d⟩
  rcases d <;> rfl

lemma agentMove_eq (w : World) (i : String) (dx dy : Int) (a : Entity)
    (hfe : w.findEntity i = some a) :
    agentMove w i dx dy =
      (if w.isValidPosition (a.x + dx) (a.y + dy) = false then (w, false)
       else if (w.getEntityAt (a.x + dx) (a.y + dy)).any (fun j =>
           match w.findEntity j with
           | some e => e.isAgent
           | none => false)
         then (w, false)
         else ((w.moveEntity i (a.x + dx) (a.y + dy)).1, true)) := by
  unfold agentMove
  rw [hfe]

lemma registered_agent_pos {w : World} (h : WorldInv w) {i : String}
    {a : Entity} (hfe : w.findEntity i = some a) :
    w.entity_positions i = some (a.x, a.y) := by
  have hid : a.id = i := by simpa using List.find?_some hfe
  have hmem : a ∈ w.entities := List.mem_of_find?_eq_some hfe
  have hc := h.coords a hmem
  rw [hid] at hc
  exact hc

/-! ## Lemmas about `Agent.harvest` -/

lemma withQuantity_id (e : Entity) (q : Int) : (e.withQuantity q).id = e.id := rfl

lemma withQuantity_x (e : Entity) (q : Int) : (e.withQuantity q).x = e.x := rfl

lemma withQuantity_y (e : Entity) (q : Int) : (e.withQuantity q).y = e.y := rfl

lemma addInv_id (e : Entity) (t : String) (n : Int) : (e.addInv t n).id = e.id := rfl

lemma addInv_x (e : Entity) (t : String) (n : Int) : (e.addInv t n).x = e.x := rfl

lemma addInv_y (e : Entity) (t : String) (n : Int) : (e.addInv t n).y = e.y := rfl

lemma addInv_quantity (e : Entity) (t : String) (n : Int) :
    (e.addInv t n).quantity = e.quantity := by
  rcases e with ⟨i2, x2, y2, d⟩
  rcases d <;> rfl

lemma withQuantity_quantity_res (e : Entity) (q : Int)
    (hres : e.isResource = true) : (e.withQuantity q).quantity = q := by
  rcases e with ⟨i2, x2, y2, d⟩
  rcases d
  · simp [Entity.isResource] at hres
  · rfl

lemma withQuantity_eq_self (e : Entity)
    (hq : e.quantity = 0) : e.withQuantity 0 = e := by
  rcases e with ⟨i2, x2, y2, d⟩
  rcases d with _ | ⟨rt, q⟩
  · rfl
  · simp only [Entity.quantity] at hq
    simp [Entity.withQuantity, hq]

lemma findEntity_updateEntity (w : World) (j : String)
    (f : Entity → Entity) (hid : ∀ e, (f e).id = e.id) (k : String) :
    (w.updateEntity j f).findEntity k
      = (w.findEntity k).map (fun e => if e.id = j then f e else e) := by
  unfold World.updateEntity World.findEntity
  exact find?_map_id_pres _ _ (by intro e; by_cases hc : e.id = j <;>
    simp [hc, hid]) k

lemma updateEntity_eq_self (w : World) (j : String) (f : Entity → Entity)
    (hf : ∀ e ∈ w.entities, e.id = j → f e = e) : w.updateEntity j f = w := by
  unfold World.updateEntity
  have hmap : w.entities.map (fun e => if e.id = j then f e else e)
      = w.entities := by
    have h1 : w.entities.map (fun e => if e.id = j then f e else e)
        = w.entities.map id := by
      apply List.map_congr_left
      intro e he
      by_cases hc : e.id = j
      · rw [if_pos hc, hf e he hc]
        rfl
      · rw [if_neg hc]
        rfl
    rw [h1, List.map_id]
  rw [hmap]

lemma updateEntity_preserves_inv {w : World} (h : WorldInv w) (j : String)
    (f : Entity → Entity) (hid : ∀ e, (f e).id = e.id)
    (hx : ∀ e, (f e).x = e.x) (hy : ∀ e, (f e).y = e.y) :
    WorldInv (w.updateEntity j f) := by
  have hg : ∀ e : Entity,
      ((fun e => if e.id = j then f e else e) e).id = e.id := by
    intro e
    by_cases hc : e.id = j <;> simp [hc, hid]
  constructor
  · intro k
    show ((w.updateEntity j f).findEntity k).isSome
      ↔ (w.entity_positions k).isSome
    rw [findEntity_updateEntity w j f hid k, Option.isSome_map']
    exact h.keys k
  · show ((w.entities.map (fun e => if e.id = j then f e else e)).map
      Entity.id).Nodup
    have hcomp : (Entity.id ∘ (fun e : Entity => if e.id = j then f e else e))
        = Entity.id := by
      funext e
      simp [Function.comp, hg e]
    rw [List.map_map, hcomp]
    exact h.nodup
  · exact h.valid
  · exact h.count_one
  · exact h.pos_of_mem
  · intro e' he'
    rcases List.mem_map.mp he' with ⟨e0, he0, rfl⟩
    by_cases hc : e0.id = j
    · rw [if_pos hc]
      show w.entity_positions (f e0).id = some ((f e0).x, (f e0).y)
      rw [hid e0, hx e0, hy e0]
      exact h.coords e0 he0
    · rw [if_neg hc]
      exact h.coords e0 he0

lemma find?_unique_of_nodup (l : List Entity)
    (hnd : (l.map Entity.id).Nodup) (j : String) (e e2 : Entity)
    (hfe : l.find? (fun x => x.id = j) = some e)
    (he2 : e2 ∈ l) (hid : e2.id = j) : e2 = e := by
  induction l with
  | nil => exact absurd hfe (by simp)
  | cons a l ih =>
    simp only [List.map_cons, List.nodup_cons] at hnd
    by_cases haj : a.id = j
    · rw [List.find?_cons_of_pos _ (by simp [haj])] at hfe
      have hae : a = e := Option.some.inj hfe
      rcases List.mem_cons.mp he2 with rfl | hmem
      · exact hae
      · have hin : e2.id ∈ List.map Entity.id l := List.mem_map_of_mem _ hmem
        rw [hid, ← haj] at hin
        exact absurd hin hnd.1
    · rw [List.find?_cons_of_neg _ (by simp [haj])] at hfe
      rcases List.mem_cons.mp he2 with rfl | hmem
      · exact absurd hid haj
      · exact ih hnd.2 hfe hmem

lemma quantity_eq_of_data (e : Entity) (rt : String) (q : Int)
    (hd : e.data = EntityData.res rt q) : e.quantity = q := by
  rcases e with ⟨i2, x2, y2, d⟩
  simp only at hd
  rw [Entity.quantity, hd]

lemma harvestLoop_spec (agentId : String) (w : World)
    (cell : List String) (hInv : WorldInv w)
    (hnn : ∀ e ∈ w.entities, 0 ≤ e.quantity) :
    (harvestLoop agentId w cell = (w, false)
      ∧ ∀ j ∈ cell, ∀ e', w.findEntity j = some e' →
          e'.isResource = true → e'.quantity = 0)
    ∨ (∃ j ∈ cell, ∃ e1, w.findEntity j = some e1
        ∧ ∃ rt q, e1.data = EntityData.res rt q ∧ 0 < q
        ∧ harvestLoop agentId w cell =
            ((if isDepleted (q - min 10 q) = true
              then (((w.updateEntity j
                      (fun e0 => e0.withQuantity (q - min 10 q))).updateEntity
                      agentId (fun e0 => e0.addInv rt (min 10 q))).removeEntity
                      j).1
              else (w.updateEntity j
                      (fun e0 => e0.withQuantity (q - min 10 q))).updateEntity
                      agentId (fun e0 => e0.addInv rt (min 10 q))), true)) := by
  induction cell with
  | nil =>
    left
    exact ⟨rfl, by simp⟩
  | cons j rest ih =>
    rcases hfe : w.findEntity j with _ | e
    · have hl : harvestLoop agentId w (j :: rest)
          = harvestLoop agentId w rest := by
        conv_lhs => unfold harvestLoop
        rw [hfe]
      rcases ih with ⟨hres, hall⟩ | ⟨j', hj', rest'⟩
      · left
        refine ⟨by rw [hl, hres], ?_⟩
        intro j2 hj2 e' he' hr2
        rcases List.mem_cons.mp hj2 with rfl | hj2r
        · rw [hfe] at he'
          exact absurd he' (by simp)
        · exact hall j2 hj2r e' he' hr2
      · right
        refine ⟨j', List.mem_cons_of_mem _ hj', ?_⟩
        rw [hl]
        exact rest'
    · rcases e with ⟨eid, ex, ey, ed⟩
      rcases ed with ⟨nm, einv⟩ | ⟨rt, q⟩
      · have hl : harvestLoop agentId w (j :: rest)
            = harvestLoop agentId w rest := by
          conv_lhs => unfold harvestLoop
          rw [hfe]
        rcases ih with ⟨hres, hall⟩ | ⟨j', hj', rest'⟩
        · left
          refine ⟨by rw [hl, hres], ?_⟩
          intro j2 hj2 e' he' hr2
          rcases List.mem_cons.mp hj2 with rfl | hj2r
          · rw [hfe] at he'
            have he2 : e' = ⟨eid, ex, ey, EntityData.agent nm einv⟩ :=
              Option.some.inj he'.symm
            subst he2
            exact Bool.noConfusion hr2
          · exact hall j2 hj2r e' he' hr2
        · right
          refine ⟨j', List.mem_cons_of_mem _ hj', ?_⟩
          rw [hl]
          exact rest'
      · have hq0 : 0 ≤ q := by
          have hmem := List.mem_of_find?_eq_some hfe
          have hq := hnn _ hmem
          simpa [Entity.quantity] using hq
        by_cases hpos : 0 < min 10 q
        · right
          refine ⟨j, List.mem_cons_self _ _,
            ⟨eid, ex, ey, EntityData.res rt q⟩, hfe, rt, q, rfl,
            by omega, ?_⟩
          have hl : harvestLoop agentId w (j :: rest)
              = (if (resourceHarvest q 10).2 > 0 then
                  ((if isDepleted (resourceHarvest q 10).1 = true
                    then (((w.updateEntity j (fun e0 =>
                            e0.withQuantity (resourceHarvest q 10).1)).updateEntity
                            agentId (fun e0 =>
                            e0.addInv rt (resourceHarvest q 10).2)).removeEntity
                            j).1
                    else (w.updateEntity j (fun e0 =>
                            e0.withQuantity (resourceHarvest q 10).1)).updateEntity
                            agentId (fun e0 =>
                            e0.addInv rt (resourceHarvest q 10).2)), true)
                 else harvestLoop agentId (w.updateEntity j (fun e0 =>
                        e0.withQuantity (resourceHarvest q 10).1)) rest) := by
            conv_lhs => unfold harvestLoop
            rw [hfe]
          rw [hl, if_pos (by simp only [resourceHarvest]; omega)]
          rfl
        · have hq : q = 0 := by omega
          subst hq
          have hw1 : w.updateEntity j
              (fun e0 => e0.withQuantity ((resourceHarvest 0 10).1)) = w := by
            have hzero : (resourceHarvest 0 10).1 = 0 := by
              simp [resourceHarvest]
            rw [hzero]
            apply updateEntity_eq_self
            intro e2 he2 hid2
            have he2e : e2 = ⟨eid, ex, ey, EntityData.res rt 0⟩ :=
              find?_unique_of_nodup w.entities hInv.nodup j _ e2 hfe he2 hid2
            subst he2e
            rfl
          have hl : harvestLoop agentId w (j :: rest)
              = harvestLoop agentId w rest := by
            conv_lhs => unfold harvestLoop
            rw [hfe]
            show (if (resourceHarvest 0 10).2 > 0 then _ else
                harvestLoop agentId (w.updateEntity j (fun e0 =>
                  e0.withQuantity ((resourceHarvest 0 10).1))) rest)
              = harvestLoop agentId w rest
            rw [if_neg (by simp [resourceHarvest]), hw1]
          rcases ih with ⟨hres, hall⟩ | ⟨j', hj', rest'⟩
          · left
            refine ⟨by rw [hl, hres], ?_⟩
            intro j2 hj2 e' he' hr2
            rcases List.mem_cons.mp hj2 with rfl | hj2r
            · rw [hfe] at he'
              have he2 : e' = ⟨eid, ex, ey, EntityData.res rt 0⟩ :=
                Option.some.inj he'.symm
              subst he2
              rfl
            · exact hall j2 hj2r e' he' hr2
          · right
            refine ⟨j', List.mem_cons_of_mem _ hj', ?_⟩
            rw [hl]
            exact rest'

lemma withQuantity_quantity_cases (e : Entity) (q' : Int) :
    (e.withQuantity q').quantity = q'
    ∨ (e.withQuantity q').quantity = e.quantity := by
  rcases e with ⟨i2, x2, y2, d⟩
  rcases d
  · right
    rfl
  · left
    rfl

lemma agentHarvest_eq (w : World) (i : String) (a : Entity)
    (hfe : w.findEntity i = some a) :
    agentHarvest w i = harvestLoop i w (w.getEntityAt a.x a.y) := by
  unfold agentHarvest
  rw [hfe]

lemma isResource_of_data (e : Entity) (rt : String) (q : Int)
    (hd : e.data = EntityData.res rt q) : e.isResource = true := by
  rcases e with ⟨i2, x2, y2, d⟩
  simp only at hd
  rw [Entity.isResource, hd]

lemma addInv_data_agent (a : Entity) (nm : String) (ainv : String → Int)
    (rt : String) (n : Int) (hd : a.data = EntityData.agent nm ainv) :
    (a.addInv rt n).data
      = EntityData.agent nm (addToInventory ainv rt n) := by
  rcases a with ⟨i2, x2, y2, d⟩
  simp only at hd
  rw [Entity.addInv, hd]

lemma findEntity_of_mem {w : World}
    (hnd : (w.entities.map Entity.id).Nodup)
    {e : Entity} (he : e ∈ w.entities) : w.findEntity e.id = some e := by
  rcases hfk : w.findEntity e.id with _ | e'
  · rw [findEntity_none_iff] at hfk
    exact absurd rfl (hfk e he)
  · have hee : e = e' :=
      find?_unique_of_nodup w.entities hnd e.id e' e hfk he rfl
    rw [hee]

lemma agentHarvest_spec (w : World) (i : String) (a : Entity)
    (h : WorldInv w) (hnn : ∀ e ∈ w.entities, 0 ≤ e.quantity)
    (hfe : w.findEntity i = some a) (hagent : a.isAgent = true) :
    ((agentHarvest w i).2 = false → agentHarvest w i = (w, false))
    ∧ ((∀ j ∈ w.getEntityAt a.x a.y, ∀ e', w.findEntity j = some e' →
          e'.isResource = false) → agentHarvest w i = (w, false))
    ∧ (∀ k e2, (agentHarvest w i).1.findEntity k = some e2 →
        ∃ e1, w.findEntity k = some e1 ∧ e2.quantity ≤ e1.quantity)
    ∧ (∀ e2 ∈ (agentHarvest w i).1.entities, 0 ≤ e2.quantity)
    ∧ ((agentHarvest w i).2 = true →
        ∃ j ∈ w.getEntityAt a.x a.y, ∃ e1 rt q,
          w.findEntity j = some e1
          ∧ e1.data = EntityData.res rt q
          ∧ 0 < q ∧ 0 < min 10 q
          ∧ (0 < q - min 10 q →
              ∃ e2, (agentHarvest w i).1.findEntity j = some e2
                ∧ e2.quantity = q - min 10 q)
          ∧ (q - min 10 q ≤ 0 →
              (agentHarvest w i).1.findEntity j = none)
          ∧ (∀ nm ainv, a.data = EntityData.agent nm ainv →
              ∃ a2, (agentHarvest w i).1.findEntity i = some a2
                ∧ a2.data = EntityData.agent nm
                    (addToInventory ainv rt (min 10 q)))
          ∧ (∀ k, ¬ k = j → ¬ k = i →
              (agentHarvest w i).1.findEntity k = w.findEntity k)) := by
  rw [agentHarvest_eq w i a hfe]
  rcases harvestLoop_spec i w (w.getEntityAt a.x a.y) h hnn with
    ⟨heq, _⟩ | ⟨j, hj, e1, hje, rt, q, hd, hqpos, heq⟩
  · rw [heq]
    refine ⟨fun _ => rfl, fun _ => rfl, ?_, hnn, ?_⟩
    · intro k e2 hk
      exact ⟨e2, hk, le_refl _⟩
    · intro hfalse
      simp at hfalse
  · have hq1 : e1.quantity = q := quantity_eq_of_data e1 rt q hd
    have hres1 : e1.isResource = true := isResource_of_data e1 rt q hd
    have hjid : e1.id = j := by simpa using List.find?_some hje
    have haid : a.id = i := by simpa using List.find?_some hfe
    have hij : ¬ j = i := by
      intro hc
      subst hc
      rw [hje] at hfe
      have hae : a = e1 := Option.some.inj hfe.symm
      subst hae
      rw [isAgent_ne_isResource, hres1] at hagent
      exact Bool.noConfusion hagent
    have hfind2 : ∀ k,
        ((w.updateEntity j (fun e0 => e0.withQuantity (q - min 10 q))).updateEntity
          i (fun e0 => e0.addInv rt (min 10 q))).findEntity k
        = ((w.findEntity k).map
            (fun e => if e.id = j then e.withQuantity (q - min 10 q) else e)).map
            (fun e => if e.id = i then e.addInv rt (min 10 q) else e) := by
      intro k
      rw [findEntity_updateEntity _ i
          (fun e0 => e0.addInv rt (min 10 q)) (fun e => rfl) k,
        findEntity_updateEntity w j
          (fun e0 => e0.withQuantity (q - min 10 q)) (fun e => rfl) k]
    have hinv2 : WorldInv
        ((w.updateEntity j (fun e0 => e0.withQuantity (q - min 10 q))).updateEntity
          i (fun e0 => e0.addInv rt (min 10 q))) :=
      updateEntity_preserves_inv
        (updateEntity_preserves_inv h j
          (fun e0 => e0.withQuantity (q - min 10 q)) (fun e => rfl)
          (fun e => rfl) (fun e => rfl))
        i (fun e0 => e0.addInv rt (min 10 q)) (fun e => rfl) (fun e => rfl)
        (fun e => rfl)
    have hW2j :
        ((w.updateEntity j (fun e0 => e0.withQuantity (q - min 10 q))).updateEntity
          i (fun e0 => e0.addInv rt (min 10 q))).findEntity j
        = some (e1.withQuantity (q - min 10 q)) := by
      rw [hfind2 j, hje]
      simp only [Option.map_some']
      rw [if_pos hjid, if_neg (fun hc => hij (by
        rw [← hjid, ← withQuantity_id e1 (q - min 10 q), hc]))]
    have hW2i :
        ((w.updateEntity j (fun e0 => e0.withQuantity (q - min 10 q))).updateEntity
          i (fun e0 => e0.addInv rt (min 10 q))).findEntity i
        = some (a.addInv rt (min 10 q)) := by
      have hga : (if a.id = j then a.withQuantity (q - min 10 q) else a)
          = a := if_neg (fun hc => hij (by rw [← hc, haid]))
      rw [hfind2 i, hfe]
      simp only [Option.map_some']
      rw [hga, if_pos haid]
    have hW2k : ∀ k, ¬ k = j → ¬ k = i →
        ((w.updateEntity j (fun e0 => e0.withQuantity (q - min 10 q))).updateEntity
          i (fun e0 => e0.addInv rt (min 10 q))).findEntity k
        = w.findEntity k := by
      intro k hkj hki
      rw [hfind2 k]
      rcases hk : w.findEntity k with _ | e
      · rfl
      · have hkid : e.id = k := by simpa using List.find?_some hk
        have hge : (if e.id = j then e.withQuantity (q - min 10 q) else e)
            = e := if_neg (fun hc => hkj (by rw [← hkid, hc]))
        simp only [Option.map_some']
        rw [hge, if_neg (fun hc => hki (by rw [← hkid, hc]))]
    have hq0 : 0 ≤ q := by
      have hm := hnn e1 (List.mem_of_find?_eq_some hje)
      omega
    have hamem : a ∈ w.entities := List.mem_of_find?_eq_some hfe
    have hW2nn : ∀ e2 ∈
        ((w.updateEntity j (fun e0 => e0.withQuantity (q - min 10 q))).updateEntity
          i (fun e0 => e0.addInv rt (min 10 q))).entities, 0 ≤ e2.quantity := by
      intro e2 he2
      have hk2 := findEntity_of_mem hinv2.nodup he2
      by_cases hkj : e2.id = j
      · rw [hkj, hW2j] at hk2
        have he2e : e2 = e1.withQuantity (q - min 10 q) :=
          Option.some.inj hk2.symm
        rw [he2e, withQuantity_quantity_res e1 _ hres1]
        omega
      · by_cases hki : e2.id = i
        · rw [hki, hW2i] at hk2
          have he2e : e2 = a.addInv rt (min 10 q) := Option.some.inj hk2.symm
          rw [he2e, addInv_quantity]
          exact hnn a hamem
        · rw [hW2k e2.id hkj hki] at hk2
          exact hnn e2 (List.mem_of_find?_eq_some hk2)
    rw [heq]
    by_cases hdep : isDepleted (q - min 10 q) = true
    · rw [if_pos hdep]
      have hr2 : (((w.updateEntity j
          (fun e0 => e0.withQuantity (q - min 10 q))).updateEntity
          i (fun e0 => e0.addInv rt (min 10 q))).findEntity j).isSome = true := by
        rw [hW2j]
        rfl
      have hps2 := (hinv2.keys j).mp hr2
      rcases hpos2 : ((w.updateEntity j
          (fun e0 => e0.withQuantity (q - min 10 q))).updateEntity
          i (fun e0 => e0.addInv rt (min 10 q))).entity_positions j with _ | p2
      · rw [hpos2] at hps2
        simp at hps2
      · rcases p2 with ⟨px, py⟩
        have hrem := removeEntity_succ _ j px py hr2 hpos2
        have hRj : ((((w.updateEntity j
            (fun e0 => e0.withQuantity (q - min 10 q))).updateEntity
            i (fun e0 => e0.addInv rt (min 10 q))).removeEntity j).1).findEntity j
            = none := by
          rw [hrem]
          exact find?_eraseP_self _ _ hinv2.nodup
        have hRk : ∀ k, ¬ k = j →
            ((((w.updateEntity j
              (fun e0 => e0.withQuantity (q - min 10 q))).updateEntity
              i (fun e0 => e0.addInv rt (min 10 q))).removeEntity j).1).findEntity k
            = ((w.updateEntity j
              (fun e0 => e0.withQuantity (q - min 10 q))).updateEntity
              i (fun e0 => e0.addInv rt (min 10 q))).findEntity k := by
          intro k hkj
          rw [hrem]
          exact find?_eraseP_ne _ _ _ hkj
        have hRsub : ∀ e2 ∈ ((((w.updateEntity j
            (fun e0 => e0.withQuantity (q - min 10 q))).updateEntity
            i (fun e0 => e0.addInv rt (min 10 q))).removeEntity j).1).entities,
            e2 ∈ ((w.updateEntity j
              (fun e0 => e0.withQuantity (q - min 10 q))).updateEntity
              i (fun e0 => e0.addInv rt (min 10 q))).entities := by
          intro e2 he2
          rw [hrem] at he2
          exact (List.eraseP_sublist _).subset he2
        refine ⟨?_, ?_, ?_, ?_, ?_⟩
        · intro hfalse
          simp at hfalse
        · intro hnores
          have := hnores j hj e1 hje
          rw [hres1] at this
          exact Bool.noConfusion this
        · intro k e2 hk
          by_cases hkj : k = j
          · subst hkj
            rw [hRj] at hk
            exact Option.noConfusion hk
          · rw [hRk k hkj] at hk
            by_cases hki : k = i
            · subst hki
              rw [hW2i] at hk
              have he2 : e2 = a.addInv rt (min 10 q) := Option.some.inj hk.symm
              subst he2
              exact ⟨a, hfe, le_of_eq (addInv_quantity _ _ _)⟩
            · rw [hW2k k hkj hki] at hk
              exact ⟨e2, hk, le_refl _⟩
        · intro e2 he2
          exact hW2nn e2 (hRsub e2 he2)
        · intro _
          refine ⟨j, hj, e1, rt, q, hje, hd, hqpos, by omega, ?_, ?_, ?_, ?_⟩
          · intro hgt
            exfalso
            rw [isDepleted] at hdep
            simp at hdep
            omega
          · intro _
            exact hRj
          · intro nm ainv hda
            refine ⟨a.addInv rt (min 10 q), ?_,
              addInv_data_agent a nm ainv rt (min 10 q) hda⟩
            rw [hRk i (fun hc => hij hc.symm)]
            exact hW2i
          · intro k hkj hki
            rw [hRk k hkj]
            exact hW2k k hkj hki
    · rw [if_neg hdep]
      refine ⟨?_, ?_, ?_, hW2nn, ?_⟩
      · intro hfalse
        simp at hfalse
      · intro hnores
        have := hnores j hj e1 hje
        rw [hres1] at this
        exact Bool.noConfusion this
      · intro k e2 hk
        by_cases hkj : k = j
        · subst hkj
          rw [hW2j] at hk
          have he2 : e2 = e1.withQuantity (q - min 10 q) :=
            Option.some.inj hk.symm
          subst he2
          refine ⟨e1, hje, ?_⟩
          rw [withQuantity_quantity_res e1 _ hres1, hq1]
          omega
        · by_cases hki : k = i
          · subst hki
            rw [hW2i] at hk
            have he2 : e2 = a.addInv rt (min 10 q) := Option.some.inj hk.symm
            subst he2
            exact ⟨a, hfe, le_of_eq (addInv_quantity _ _ _)⟩
          · rw [hW2k k hkj hki] at hk
            exact ⟨e2, hk, le_refl _⟩
      · intro _
        refine ⟨j, hj, e1, rt, q, hje, hd, hqpos, by omega, ?_, ?_, ?_, ?_⟩
        · intro _
          refine ⟨e1.withQuantity (q - min 10 q), hW2j, ?_⟩
          exact withQuantity_quantity_res e1 _ hres1
        · intro hle
          exfalso
          rw [isDepleted] at hdep
          simp at hdep
          omega
        · intro nm ainv hda
          exact ⟨a.addInv rt (min 10 q), hW2i,
            addInv_data_agent a nm ainv rt (min 10 q) hda⟩
        · intro k hkj hki
          exact hW2k k hkj hki

/-! ## Lemmas about `spawn_resources` -/

lemma moveTo_isResource (e : Entity) (x y : Int) :
    (e.moveTo x y).isResource = e.isResource := rfl

lemma resourceCount_addEntity_succ (w : World) (e : Entity) (x y : Int)
    (hv : w.isValidPosition x y = true) (hr : w.findEntity e.id = none)
    (hres : e.isResource = true) :
    ((w.addEntity e x y).1).resourceCount = w.resourceCount + 1 := by
  rw [addEntity_succ w e x y hv hr]
  show ((w.entities ++ [e.moveTo x y]).filter Entity.isResource).length
    = (w.entities.filter Entity.isResource).length + 1
  rw [List.filter_append]
  have hone : [e.moveTo x y].filter Entity.isResource = [e.moveTo x y] := by
    simp [List.filter_singleton, moveTo_isResource, hres]
  rw [hone, List.length_append, List.length_singleton]

lemma mem_emptyCells (w : World) (c : Int × Int) (hc : c ∈ w.emptyCells) :
    w.isValidPosition c.1 c.2 = true ∧ w.grid c.1 c.2 = [] := by
  unfold World.emptyCells at hc
  rw [List.mem_flatMap] at hc
  rcases hc with ⟨x, hx, hcy⟩
  rw [List.mem_filterMap] at hcy
  rcases hcy with ⟨y, hy, hfy⟩
  rw [List.mem_range] at hx hy
  by_cases hemp : (w.getEntityAt (x : Int) (y : Int)).isEmpty = true
  · rw [if_pos hemp] at hfy
    have hcxy : c = ((x : Int), (y : Int)) := (Option.some.inj hfy).symm
    subst hcxy
    have hv : w.isValidPosition (x : Int) (y : Int) = true := by
      unfold World.isValidPosition
      have hxw : (x : Int) < w.width := Int.lt_toNat.mp hx
      have hyh : (y : Int) < w.height := Int.lt_toNat.mp hy
      simp only [decide_eq_true_eq]
      exact ⟨Int.ofNat_nonneg x, hxw, Int.ofNat_nonneg y, hyh⟩
    refine ⟨hv, ?_⟩
    have hg : w.getEntityAt (x : Int) (y : Int) = w.grid x y := by
      unfold World.getEntityAt
      rw [if_neg (by simp [hv])]
    rw [List.isEmpty_iff, hg] at hemp
    exact hemp
  · rw [if_neg hemp] at hfy
    exact absurd hfy (by simp)

lemma emptyCells_fst (w : World) (x : Nat) (c : Int × Int)
    (hc : c ∈ (List.range w.height.toNat).filterMap
      (fun (y : Nat) => if (w.getEntityAt (x : Int) (y : Int)).isEmpty = true
                then some ((x : Int), (y : Int)) else none)) :
    c.1 = (x : Int) := by
  rw [List.mem_filterMap] at hc
  rcases hc with ⟨y, _, hfy⟩
  by_cases h1 : (w.getEntityAt (x : Int) (y : Int)).isEmpty = true
  · rw [if_pos h1] at hfy
    rw [← Option.some.inj hfy]
  · rw [if_neg h1] at hfy
    exact absurd hfy (by simp)

lemma emptyCells_nodup (w : World) : w.emptyCells.Nodup := by
  unfold World.emptyCells
  rw [List.nodup_flatMap]
  constructor
  · intro x _
    apply (List.nodup_range _).filterMap
    intro a a' b hb hb'
    have ha : b.2 = (a : Int) := by
      by_cases h1 : (w.getEntityAt (x : Int) (a : Int)).isEmpty = true
      · rw [if_pos h1] at hb
        rw [← Option.some.inj hb]
      · rw [if_neg h1] at hb
        exact absurd hb (by simp)
    have ha' : b.2 = (a' : Int) := by
      by_cases h2 : (w.getEntityAt (x : Int) (a' : Int)).isEmpty = true
      · rw [if_pos h2] at hb'
        rw [← Option.some.inj hb']
      · rw [if_neg h2] at hb'
        exact absurd hb' (by simp)
    have haa : (a : Int) = (a' : Int) := by rw [← ha, ← ha']
    exact_mod_cast haa
  · refine List.Pairwise.imp ?_ (List.nodup_range _)
    intro a b hab c hca hcb
    have h1 := emptyCells_fst w a c hca
    have h2 := emptyCells_fst w b c hcb
    have hba : (a : Int) = (b : Int) := by rw [← h1, ← h2]
    exact hab (by exact_mod_cast hba)

lemma mkResource_isResource (i2 : String) (x y : Int) (ty : String)
    (q : Int) : (mkResource i2 x y ty q).isResource = true := rfl

lemma spawnLoop_spec (ids : Nat → String) (rc rq : Nat → Nat)
    (rt : Nat → Bool) (hinj : ∀ k1 k2, ids k1 = ids k2 → k1 = k2) :
    ∀ (n k : Nat) (w : World) (cells : List (Int × Int)),
    (∀ c ∈ cells, w.isValidPosition c.1 c.2 = true ∧ w.grid c.1 c.2 = []) →
    cells.Nodup →
    (∀ m, k ≤ m → w.findEntity (ids m) = none) →
    n ≤ cells.length →
    (spawnLoop ids rc rq rt k w cells n).resourceCount
        = w.resourceCount + n
    ∧ (∀ x y, (∀ c ∈ cells, ¬ (c.1 = x ∧ c.2 = y)) →
        (spawnLoop ids rc rq rt k w cells n).grid x y = w.grid x y)
    ∧ (∀ e2 ∈ (spawnLoop ids rc rq rt k w cells n).entities,
        e2 ∈ w.entities
        ∨ ∃ m, k ≤ m ∧ m < k + n ∧ e2.id = ids m
          ∧ (∃ qn : Int, (e2.data = EntityData.res "ORE" qn
              ∨ e2.data = EntityData.res "FUEL" qn)
            ∧ 20 ≤ qn ∧ qn ≤ 100)
          ∧ w.isValidPosition e2.x e2.y = true
          ∧ w.grid e2.x e2.y = []
          ∧ (spawnLoop ids rc rq rt k w cells n).grid e2.x e2.y
              = [e2.id]) := by
  intro n
  induction n with
  | zero =>
    intro k w cells hcells hnd hfre hlen
    refine ⟨by simp [spawnLoop], fun x y _ => rfl, fun e2 he2 => Or.inl he2⟩
  | succ n ih =>
    intro k w cells hcells hnd hfre hlen
    have hlenpos : 0 < cells.length := by omega
    have hidx : rc k % cells.length < cells.length :=
      Nat.mod_lt _ hlenpos
    have hcget : cells.getD (rc k % cells.length) ((0 : Int), (0 : Int))
        = cells[rc k % cells.length] :=
      List.getD_eq_getElem cells _ hidx
    have hcmem : cells.getD (rc k % cells.length) ((0 : Int), (0 : Int))
        ∈ cells := by
      rw [hcget]
      exact List.getElem_mem hidx
    rcases hcells _ hcmem with ⟨hcv, hce⟩
    have hrid : (mkResource (ids k)
        (cells.getD (rc k % cells.length) ((0 : Int), (0 : Int))).1
        (cells.getD (rc k % cells.length) ((0 : Int), (0 : Int))).2
        (if rt k then "ORE" else "FUEL")
        (20 + ((rq k % 81 : Nat) : Int))).id = ids k := rfl
    have hradd := addEntity_succ w
      (mkResource (ids k)
        (cells.getD (rc k % cells.length) ((0 : Int), (0 : Int))).1
        (cells.getD (rc k % cells.length) ((0 : Int), (0 : Int))).2
        (if rt k then "ORE" else "FUEL")
        (20 + ((rq k % 81 : Nat) : Int)))
      (cells.getD (rc k % cells.length) ((0 : Int), (0 : Int))).1
      (cells.getD (rc k % cells.length) ((0 : Int), (0 : Int))).2
      hcv (by rw [hrid]; exact hfre k (le_refl k))
    have hstep : spawnLoop ids rc rq rt k w cells (n + 1)
        = spawnLoop ids rc rq rt (k + 1)
            (w.addEntity (mkResource (ids k)
                (cells.getD (rc k % cells.length) ((0 : Int), (0 : Int))).1
                (cells.getD (rc k % cells.length) ((0 : Int), (0 : Int))).2
                (if rt k then "ORE" else "FUEL")
                (20 + ((rq k % 81 : Nat) : Int)))
              (cells.getD (rc k % cells.length) ((0 : Int), (0 : Int))).1
              (cells.getD (rc k % cells.length) ((0 : Int), (0 : Int))).2).1
            (cells.erase
              (cells.getD (rc k % cells.length) ((0 : Int), (0 : Int)))) n :=
      rfl
    set c := cells.getD (rc k % cells.length) ((0 : Int), (0 : Int))
    set r := mkResource (ids k) c.1 c.2 (if rt k then "ORE" else "FUEL")
      (20 + ((rq k % 81 : Nat) : Int))
    set w2 := (w.addEntity r c.1 c.2).1 with hw2
    set cells2 := cells.erase c with hcells2
    have hnotc : c ∉ cells2 := hnd.not_mem_erase
    have hsubc : ∀ c2 ∈ cells2, c2 ∈ cells ∧ ¬ c2 = c := by
      intro c2 hc2
      exact ⟨List.erase_subset c cells hc2, fun hcc => hnotc (hcc ▸ hc2)⟩
    have hgrid2 : ∀ x y, ¬ (c.1 = x ∧ c.2 = y) → w2.grid x y = w.grid x y := by
      intro x y hxy
      rw [hw2, hradd]
      show (if x = c.1 ∧ y = c.2 then w.grid x y ++ [r.id] else w.grid x y)
        = w.grid x y
      rw [if_neg (fun hcc => hxy ⟨hcc.1.symm, hcc.2.symm⟩)]
    have hgridc : w2.grid c.1 c.2 = [ids k] := by
      rw [hw2, hradd]
      show (if c.1 = c.1 ∧ c.2 = c.2 then w.grid c.1 c.2 ++ [r.id]
            else w.grid c.1 c.2) = [ids k]
      rw [if_pos ⟨rfl, rfl⟩, hce]
      rfl
    have hvalid2 : ∀ x y, w2.isValidPosition x y = w.isValidPosition x y := by
      intro x y
      rw [hw2, hradd]
      rfl
    have hfre2 : ∀ m, k + 1 ≤ m → w2.findEntity (ids m) = none := by
      intro m hm
      rw [hw2, hradd]
      show ((w.entities ++ [r.moveTo c.1 c.2]).find?
        (fun e => e.id = ids m)) = none
      rw [List.find?_append]
      rw [show w.entities.find? (fun e => e.id = ids m) = none from
        hfre m (by omega)]
      have hne : ¬ (ids k = ids m) := by
        intro hc
        have := hinj k m hc
        omega
      simp only [Option.none_or]
      rw [List.find?_eq_none]
      intro e' he'
      have he'r : e' = r.moveTo c.1 c.2 := by simpa using he'
      subst he'r
      simp only [decide_eq_true_eq]
      intro hcid
      exact hne hcid
    have hcells2h : ∀ c2 ∈ cells2,
        w2.isValidPosition c2.1 c2.2 = true ∧ w2.grid c2.1 c2.2 = [] := by
      intro c2 hc2
      rcases hsubc c2 hc2 with ⟨hc2c, hc2ne⟩
      rcases hcells c2 hc2c with ⟨hv2, hg2⟩
      refine ⟨by rw [hvalid2]; exact hv2, ?_⟩
      rw [hgrid2 c2.1 c2.2 (fun hcc => hc2ne (Prod.ext hcc.1.symm hcc.2.symm))]
      exact hg2
    have hlen2 : n ≤ cells2.length := by
      rw [hcells2, List.length_erase_of_mem hcmem]
      omega
    rcases ih (k + 1) w2 cells2 hcells2h (hnd.erase c) hfre2 hlen2 with
      ⟨hcount, hframe, hmem⟩
    have hcount1 : w2.resourceCount = w.resourceCount + 1 :=
      resourceCount_addEntity_succ w r c.1 c.2 hcv
        (by rw [hrid]; exact hfre k (le_refl k)) (mkResource_isResource _ _ _ _ _)
    refine ⟨?_, ?_, ?_⟩
    · rw [hstep, hcount, hcount1]
      omega
    · intro x y hxy
      rw [hstep, hframe x y (fun c2 hc2 => hxy c2 (hsubc c2 hc2).1)]
      exact hgrid2 x y (hxy c hcmem)
    · intro e2 he2
      rw [hstep] at he2
      rcases hmem e2 he2 with hold | ⟨m, hm1, hm2, hmid, hqn, hv3, hg3, hres3⟩
      · have hold2 : e2 ∈ w.entities ++ [r.moveTo c.1 c.2] := by
          rw [hw2, hradd] at hold
          exact hold
        rcases List.mem_append.mp hold2 with hw0 | hnew
        · exact Or.inl hw0
        · have he2r : e2 = r.moveTo c.1 c.2 := by simpa using hnew
          subst he2r
          right
          refine ⟨k, le_refl k, by omega, rfl, ?_, ?_, ?_, ?_⟩
          · refine ⟨20 + ((rq k % 81 : Nat) : Int), ?_, ?_, ?_⟩
            · rcases hrt : rt k with _ | _
              · right
                show (mkResource (ids k) c.1 c.2
                  (if rt k then "ORE" else "FUEL")
                  (20 + ((rq k % 81 : Nat) : Int))).data = _
                rw [hrt]
                rfl
              · left
                show (mkResource (ids k) c.1 c.2
                  (if rt k then "ORE" else "FUEL")
                  (20 + ((rq k % 81 : Nat) : Int))).data = _
                rw [hrt]
                rfl
            · have := Nat.zero_le (rq k % 81)
              omega
            · have hlt : rq k % 81 < 81 := Nat.mod_lt _ (by norm_num)
              have hlt2 : ((rq k % 81 : Nat) : Int) < 81 := by
                exact_mod_cast hlt
              omega
          · show w.isValidPosition c.1 c.2 = true
            exact hcv
          · show w.grid c.1 c.2 = []
            exact hce
          · show (spawnLoop ids rc rq rt (k + 1) w2 cells2 n).grid c.1 c.2
              = [(r.moveTo c.1 c.2).id]
            rw [hframe c.1 c.2 (fun c2 hc2 hcc =>
              (hsubc c2 hc2).2 (Prod.ext hcc.1 hcc.2))]
            rw [hgridc]
            rfl
      · right
        refine ⟨m, by omega, by omega, hmid, hqn, ?_, ?_, hres3⟩
        · rw [hvalid2] at hv3
          exact hv3
        · by_cases hcc : c.1 = e2.x ∧ c.2 = e2.y
          · exfalso
            rw [hw2, hradd] at hg3
            have hg3' : (if e2.x = c.1 ∧ e2.y = c.2
                then w.grid e2.x e2.y ++ [r.id] else w.grid e2.x e2.y)
                = [] := hg3
            rw [if_pos ⟨hcc.1.symm, hcc.2.symm⟩] at hg3'
            simp at hg3'
          · rw [hgrid2 e2.x e2.y hcc] at hg3
            exact hg3

/-- C1: after any sequence of `add_entity` / `move_entity` /
`remove_entity` calls on a fresh world, every registered entity id has a
recorded position in the index, the cell list at that position contains
the id exactly once, and the id appears in no other cell. -/
theorem grid_registry_index_consistent (ops : List Op)
    (width height : Int) (i : String)
    (hreg : ((applyOps (mkWorld width height) ops).findEntity i).isSome
      = true) :
    ∃ x y,
      (applyOps (mkWorld width height) ops).entity_positions i = some (x, y)
      ∧ ((applyOps (mkWorld width height) ops).grid x y).count i = 1
      ∧ ∀ a b, ¬ (a = x ∧ b = y) →
          i ∉ (applyOps (mkWorld width height) ops).grid a b := by
  have hinv : WorldInv (applyOps (mkWorld width height) ops) :=
    applyOps_preserves_inv (mkWorld_inv width height) ops
  have hps := (hinv.keys i).mp hreg
  rcases hpos : (applyOps (mkWorld width height) ops).entity_positions i
    with _ | p
  · rw [hpos] at hps
    simp at hps
  · rcases p with ⟨x, y⟩
    refine ⟨x, y, rfl, hinv.count_one i x y hpos, ?_⟩
    intro a b hab hm
    have hp2 := hinv.pos_of_mem i a b hm
    rw [hpos] at hp2
    have hxy : x = a ∧ y = b := by simpa using hp2
    exact hab ⟨hxy.1.symm, hxy.2.symm⟩

/-- Witness for C1: a fresh 5×5 world after adding one agent at (2, 2). -/
theorem grid_registry_index_consistent_witness :
    ∃ x y,
      (applyOps (mkWorld 5 5) [Op.add agentA 2 2]).entity_positions
        "agent-a" = some (x, y)
      ∧ ((applyOps (mkWorld 5 5) [Op.add agentA 2 2]).grid x y).count
          "agent-a" = 1
      ∧ ∀ a b, ¬ (a = x ∧ b = y) →
          "agent-a" ∉ (applyOps (mkWorld 5 5) [Op.add agentA 2 2]).grid a b :=
  grid_registry_index_consistent [Op.add agentA 2 2] 5 5 "agent-a" (by rfl)

/-- C8: `add_entity` fails atomically (world, including grid, registry and
index, and the passed entity unchanged) when the position is out of bounds
or the id is already registered; `move_entity` fails atomically when the
new position is out of bounds or the id is unknown; and on success
`move_entity` relocates the entity in the grid and the index together:
afterwards the index records the new position and the id sits exactly in
the new cell. -/
theorem mutators_atomic (w : World) (h : WorldInv w) (e : Entity)
    (x y : Int) (i : String) (nx ny : Int) :
    ((w.isValidPosition x y = false ∨ (w.findEntity e.id).isSome = true) →
       w.addEntity e x y = (w, e, false))
    ∧ ((w.isValidPosition nx ny = false ∨ w.findEntity i = none) →
       w.moveEntity i nx ny = (w, false))
    ∧ (w.isValidPosition nx ny = true → (w.findEntity i).isSome = true →
        (w.moveEntity i nx ny).2 = true
        ∧ (w.moveEntity i nx ny).1.entity_positions i = some (nx, ny)
        ∧ ((w.moveEntity i nx ny).1.grid nx ny).count i = 1
        ∧ ∀ a b, ¬ (a = nx ∧ b = ny) →
            i ∉ (w.moveEntity i nx ny).1.grid a b) := by
  refine ⟨?_, ?_, ?_⟩
  · rintro (hv | hdup)
    · exact addEntity_fail_invalid w e x y hv
    · by_cases hv : w.isValidPosition x y = true
      · exact addEntity_fail_dup w e x y hv hdup
      · exact addEntity_fail_invalid w e x y (by simpa using hv)
  · rintro (hv | hun)
    · exact moveEntity_fail_invalid w i nx ny hv
    · by_cases hv : w.isValidPosition nx ny = true
      · exact moveEntity_fail_unknown w i nx ny hv hun
      · exact moveEntity_fail_invalid w i nx ny (by simpa using hv)
  · intro hv hr
    have hps := (h.keys i).mp hr
    rcases hpos : w.entity_positions i with _ | p
    · rw [hpos] at hps
      simp at hps
    · rcases p with ⟨ox, oy⟩
      have hinv2 : WorldInv (w.moveEntity i nx ny).1 :=
        moveEntity_preserves_inv h i nx ny
      have hpos2 : (w.moveEntity i nx ny).1.entity_positions i
          = some (nx, ny) := by
        rw [moveEntity_succ w i nx ny ox oy hv hr hpos]
        simp
      refine ⟨?_, hpos2, hinv2.count_one i nx ny hpos2, ?_⟩
      · rw [moveEntity_succ w i nx ny ox oy hv hr hpos]
      · intro a b hab hm
        have hp2 := hinv2.pos_of_mem i a b hm
        rw [hpos2] at hp2
        have hxy : nx = a ∧ ny = b := by simpa using hp2
        exact hab ⟨hxy.1.symm, hxy.2.symm⟩

/-- Witness for C8: a 5×5 world holding one agent; `add_entity` out of
bounds fails atomically and `move_entity` of the agent to (3, 2)
relocates grid and index together. -/
theorem mutators_atomic_witness :
    (applyOps (mkWorld 5 5) [Op.add agentA 2 2]).addEntity agentB 9 9
      = (applyOps (mkWorld 5 5) [Op.add agentA 2 2], agentB, false)
    ∧ ((applyOps (mkWorld 5 5) [Op.add agentA 2 2]).moveEntity
        "agent-a" 3 2).1.entity_positions "agent-a" = some (3, 2) := by
  have h := mutators_atomic (applyOps (mkWorld 5 5) [Op.add agentA 2 2])
    (applyOps_preserves_inv (mkWorld_inv 5 5) [Op.add agentA 2 2])
    agentB 9 9 "agent-a" 3 2
  exact ⟨h.1 (Or.inl (by rfl)), (h.2.2 (by rfl) (by rfl)).2.1⟩

/-- C10: for a registered agent, `move(0, 0)` always returns `False` and
leaves the world unchanged, because the occupancy check over the target
cell counts the moving agent itself (any entity with a `name` attribute)
as a blocking agent. -/
theorem move_zero_delta_blocked (w : World) (h : WorldInv w) (i : String)
    (a : Entity) (hfe : w.findEntity i = some a)
    (hagent : a.isAgent = true) :
    agentMove w i 0 0 = (w, false) := by
  have hpos : w.entity_positions i = some (a.x, a.y) :=
    registered_agent_pos h hfe
  have hvalid : w.isValidPosition a.x a.y = true := h.valid i a.x a.y hpos
  have hmemg : i ∈ w.grid a.x a.y := by
    have hc := h.count_one i a.x a.y hpos
    have hcp : 0 < (w.grid a.x a.y).count i := by omega
    exact List.count_pos_iff.mp hcp
  rw [agentMove_eq w i 0 0 a hfe]
  have hx : a.x + 0 = a.x := by ring
  have hy : a.y + 0 = a.y := by ring
  rw [hx, hy]
  rw [if_neg (by simp [hvalid])]
  have hany : (w.getEntityAt a.x a.y).any (fun j =>
      match w.findEntity j with
      | some e => e.isAgent
      | none => false) = true := by
    rw [List.any_eq_true]
    refine ⟨i, ?_, ?_⟩
    · unfold World.getEntityAt
      rw [if_neg (by simp [hvalid])]
      exact hmemg
    · rw [hfe]
      exact hagent
  rw [if_pos hany]

/-- Witness for C10: one agent at (2, 2) of a 5×5 world; `move(0, 0)`
returns `False` and changes nothing. -/
theorem move_zero_delta_blocked_witness :
    agentMove (applyOps (mkWorld 5 5) [Op.add agentA 2 2]) "agent-a" 0 0
      = (applyOps (mkWorld 5 5) [Op.add agentA 2 2], false) :=
  move_zero_delta_blocked (applyOps (mkWorld 5 5) [Op.add agentA 2 2])
    (applyOps_preserves_inv (mkWorld_inv 5 5) [Op.add agentA 2 2])
    "agent-a" (mkAgent "agent-a" 2 2 "Alpha") (by rfl) (by rfl)

/-- C3: for a registered agent, `move(dx, dy)` targets
`(agent.x + dx, agent.y + dy)`; it returns `False` with the whole world
unchanged when the target is out of bounds or some other agent occupies
the target cell, and when the target is in bounds and its cell holds only
resources it returns `True`, relocates the agent there (index updated,
agent exactly in the new cell) and leaves the resources in that cell in
place. -/
theorem agent_move_correct (w : World) (h : WorldInv w) (i : String)
    (a : Entity) (dx dy : Int) (hfe : w.findEntity i = some a)
    (hagent : a.isAgent = true) :
    (w.isValidPosition (a.x + dx) (a.y + dy) = false →
       agentMove w i dx dy = (w, false))
    ∧ ((∃ j ∈ w.grid (a.x + dx) (a.y + dy), ∃ e', w.findEntity j = some e'
          ∧ e'.isAgent = true ∧ e'.id ≠ i) →
       agentMove w i dx dy = (w, false))
    ∧ (w.isValidPosition (a.x + dx) (a.y + dy) = true →
       (∀ j ∈ w.grid (a.x + dx) (a.y + dy), ∃ e', w.findEntity j = some e'
          ∧ e'.isResource = true) →
       (agentMove w i dx dy).2 = true
       ∧ (agentMove w i dx dy).1.entity_positions i
           = some (a.x + dx, a.y + dy)
       ∧ ((agentMove w i dx dy).1.grid (a.x + dx) (a.y + dy)).count i = 1
       ∧ ∀ j ∈ w.grid (a.x + dx) (a.y + dy),
           j ∈ (agentMove w i dx dy).1.grid (a.x + dx) (a.y + dy)) := by
  have hpos : w.entity_positions i = some (a.x, a.y) :=
    registered_agent_pos h hfe
  have hr : (w.findEntity i).isSome = true := by rw [hfe]; rfl
  refine ⟨?_, ?_, ?_⟩
  · intro hv
    rw [agentMove_eq w i dx dy a hfe, if_pos hv]
  · rintro ⟨j, hj, e', hje, hea, _⟩
    rw [agentMove_eq w i dx dy a hfe]
    by_cases hv : w.isValidPosition (a.x + dx) (a.y + dy) = false
    · rw [if_pos hv]
    · have hvt : w.isValidPosition (a.x + dx) (a.y + dy) = true := by
        simpa using hv
      rw [if_neg hv]
      have hany : (w.getEntityAt (a.x + dx) (a.y + dy)).any (fun j =>
          match w.findEntity j with
          | some e => e.isAgent
          | none => false) = true := by
        rw [List.any_eq_true]
        refine ⟨j, ?_, ?_⟩
        · unfold World.getEntityAt
          rw [if_neg (by simp [hvt])]
          exact hj
        · rw [hje]
          exact hea
      rw [if_pos hany]
  · intro hvt hres
    have hnotold : ¬ (a.x + dx = a.x ∧ a.y + dy = a.y) := by
      intro hc
      obtain ⟨h1, h2⟩ := hc
      have hmemg : i ∈ w.grid (a.x + dx) (a.y + dy) := by
        rw [h1, h2]
        have hc1 := h.count_one i a.x a.y hpos
        have hcp : 0 < (w.grid a.x a.y).count i := by omega
        exact List.count_pos_iff.mp hcp
      rcases hres i hmemg with ⟨e', hje, her⟩
      rw [hfe] at hje
      have hea : e' = a := (Option.some.inj hje).symm
      subst hea
      rw [isAgent_ne_isResource, her] at hagent
      simp at hagent
    have hany : (w.getEntityAt (a.x + dx) (a.y + dy)).any (fun j =>
        match w.findEntity j with
        | some e => e.isAgent
        | none => false) = false := by
      rw [List.any_eq_false]
      intro j hj
      have hj2 : j ∈ w.grid (a.x + dx) (a.y + dy) := by
        unfold World.getEntityAt at hj
        rw [if_neg (by simp [hvt])] at hj
        exact hj
      rcases hres j hj2 with ⟨e', hje, her⟩
      rw [hje]
      show ¬ e'.isAgent = true
      rw [isAgent_ne_isResource, her]
      simp
    have heq : agentMove w i dx dy
        = ((w.moveEntity i (a.x + dx) (a.y + dy)).1, true) := by
      rw [agentMove_eq w i dx dy a hfe, if_neg (by simp [hvt]),
        if_neg (by simp [hany])]
    rw [heq]
    have hinv2 : WorldInv (w.moveEntity i (a.x + dx) (a.y + dy)).1 :=
      moveEntity_preserves_inv h i (a.x + dx) (a.y + dy)
    have hpos2 : (w.moveEntity i (a.x + dx) (a.y + dy)).1.entity_positions i
        = some (a.x + dx, a.y + dy) := by
      rw [moveEntity_succ w i (a.x + dx) (a.y + dy) a.x a.y hvt hr hpos]
      simp
    refine ⟨rfl, hpos2,
      hinv2.count_one i (a.x + dx) (a.y + dy) hpos2, ?_⟩
    intro j hj
    rw [moveEntity_succ w i (a.x + dx) (a.y + dy) a.x a.y hvt hr hpos]
    show j ∈ (if (a.x + dx) = (a.x + dx) ∧ (a.y + dy) = (a.y + dy)
        then (if (a.x + dx) = a.x ∧ (a.y + dy) = a.y
              then (w.grid (a.x + dx) (a.y + dy)).erase i
              else w.grid (a.x + dx) (a.y + dy)) ++ [i]
        else (if (a.x + dx) = a.x ∧ (a.y + dy) = a.y
              then (w.grid (a.x + dx) (a.y + dy)).erase i
              else w.grid (a.x + dx) (a.y + dy)))
    rw [if_pos ⟨rfl, rfl⟩, if_neg hnotold]
    exact List.mem_append_left _ hj

/-- Witness for C3: the spec scenario. Empty 5×5 world with an agent at
(2, 2): `move(1, 0)` succeeds and the agent is at (3, 2); `move(10, 0)`
then fails, changing nothing, with the agent still at (3, 2). -/
theorem agent_move_correct_witness :
    (agentMove (applyOps (mkWorld 5 5) [Op.add agentA 2 2])
        "agent-a" 1 0).2 = true
    ∧ (agentMove (applyOps (mkWorld 5 5) [Op.add agentA 2 2])
        "agent-a" 1 0).1.entity_positions "agent-a" = some (3, 2)
    ∧ agentMove (agentMove (applyOps (mkWorld 5 5) [Op.add agentA 2 2])
          "agent-a" 1 0).1 "agent-a" 10 0
        = ((agentMove (applyOps (mkWorld 5 5) [Op.add agentA 2 2])
            "agent-a" 1 0).1, false) := by
  have hinv1 : WorldInv (applyOps (mkWorld 5 5) [Op.add agentA 2 2]) :=
    applyOps_preserves_inv (mkWorld_inv 5 5) [Op.add agentA 2 2]
  have h1 := agent_move_correct (applyOps (mkWorld 5 5) [Op.add agentA 2 2])
    hinv1 "agent-a" (mkAgent "agent-a" 2 2 "Alpha") 1 0 (by rfl) (by rfl)
  have hres : ∀ j ∈ (applyOps (mkWorld 5 5) [Op.add agentA 2 2]).grid
      ((mkAgent "agent-a" 2 2 "Alpha").x + 1)
      ((mkAgent "agent-a" 2 2 "Alpha").y + 0),
      ∃ e', (applyOps (mkWorld 5 5) [Op.add agentA 2 2]).findEntity j
          = some e' ∧ e'.isResource = true := by
    intro j hj
    have hempty : (applyOps (mkWorld 5 5) [Op.add agentA 2 2]).grid
        ((mkAgent "agent-a" 2 2 "Alpha").x + 1)
        ((mkAgent "agent-a" 2 2 "Alpha").y + 0) = [] := by rfl
    rw [hempty] at hj
    exact absurd hj (List.not_mem_nil j)
  have hsucc := h1.2.2 (by rfl) hres
  have hinv2 : WorldInv (agentMove (applyOps (mkWorld 5 5)
      [Op.add agentA 2 2]) "agent-a" 1 0).1 :=
    moveEntity_preserves_inv hinv1 "agent-a" 3 2
  have h2 := agent_move_correct (agentMove (applyOps (mkWorld 5 5)
      [Op.add agentA 2 2]) "agent-a" 1 0).1
    hinv2 "agent-a" (mkAgent "agent-a" 3 2 "Alpha") 10 0 (by rfl) (by rfl)
  exact ⟨hsucc.1, hsucc.2.1, h2.1 (by rfl)⟩

/-- C4: for a registered agent in a consistent world whose resource
quantities are non-negative, `harvest` returns `False` and changes
nothing when no resource is at the agent's cell; it never increases any
entity's quantity and never creates entities; each successful harvest
takes exactly `min(10, q)` units (a positive amount) from exactly one
resource at the agent's cell, credits the agent's inventory with exactly
that amount, leaves every other entity untouched, leaves the harvested
resource with the non-negative quantity `q - min(10, q)`, and removes it
exactly when that reaches 0. -/
theorem agent_harvest_correct (w : World) (i : String) (a : Entity)
    (h : WorldInv w) (hnn : ∀ e ∈ w.entities, 0 ≤ e.quantity)
    (hfe : w.findEntity i = some a) (hagent : a.isAgent = true) :
    ((∀ j ∈ w.getEntityAt a.x a.y, ∀ e', w.findEntity j = some e' →
        e'.isResource = false) → agentHarvest w i = (w, false))
    ∧ (∀ k e2, (agentHarvest w i).1.findEntity k = some e2 →
        ∃ e1, w.findEntity k = some e1 ∧ e2.quantity ≤ e1.quantity)
    ∧ ((agentHarvest w i).2 = true →
        ∃ j ∈ w.getEntityAt a.x a.y, ∃ e1 rt q,
          w.findEntity j = some e1
          ∧ e1.data = EntityData.res rt q
          ∧ 0 < q ∧ 0 < min 10 q
          ∧ (0 < q - min 10 q →
              ∃ e2, (agentHarvest w i).1.findEntity j = some e2
                ∧ e2.quantity = q - min 10 q)
          ∧ (q - min 10 q ≤ 0 →
              (agentHarvest w i).1.findEntity j = none)
          ∧ (∀ nm ainv, a.data = EntityData.agent nm ainv →
              ∃ a2, (agentHarvest w i).1.findEntity i = some a2
                ∧ a2.data = EntityData.agent nm
                    (addToInventory ainv rt (min 10 q)))
          ∧ (∀ k, ¬ k = j → ¬ k = i →
              (agentHarvest w i).1.findEntity k = w.findEntity k)) := by
  have hs := agentHarvest_spec w i a h hnn hfe hagent
  exact ⟨hs.2.1, hs.2.2.1, hs.2.2.2.2⟩

/-- Witness for C4: a 5×5 world with an agent and a 7-unit ore deposit on
the same cell; harvest succeeds and quantities do not increase. -/
theorem agent_harvest_correct_witness :
    (agentHarvest (applyOps (mkWorld 5 5)
        [Op.add agentA 2 2, Op.add oreSmall 2 2]) "agent-a").2 = true
    ∧ ∀ k e2, (agentHarvest (applyOps (mkWorld 5 5)
        [Op.add agentA 2 2, Op.add oreSmall 2 2]) "agent-a").1.findEntity k
          = some e2 →
        ∃ e1, (applyOps (mkWorld 5 5)
          [Op.add agentA 2 2, Op.add oreSmall 2 2]).findEntity k = some e1
          ∧ e2.quantity ≤ e1.quantity := by
  have h := agent_harvest_correct
    (applyOps (mkWorld 5 5) [Op.add agentA 2 2, Op.add oreSmall 2 2])
    "agent-a" (mkAgent "agent-a" 2 2 "Alpha")
    (applyOps_preserves_inv (mkWorld_inv 5 5)
      [Op.add agentA 2 2, Op.add oreSmall 2 2])
    (by decide) (by rfl) (by rfl)
  exact ⟨by rfl, h.2.1⟩

/-- C7 (amended): for a registered agent in a consistent world with
non-negative resource quantities, `harvest` keeps every quantity
non-negative, and a resource brought to quantity 0 by a successful
harvest (initial quantity in (0, 10]) is removed by that same harvest;
a resource with more than 10 units survives with exactly `q - 10` left.
(A resource already at quantity 0 is skipped, not removed — see the
counterexample.) -/
theorem resource_depletion_behavior (w : World) (i : String) (a : Entity)
    (h : WorldInv w) (hnn : ∀ e ∈ w.entities, 0 ≤ e.quantity)
    (hfe : w.findEntity i = some a) (hagent : a.isAgent = true) :
    (∀ e2 ∈ (agentHarvest w i).1.entities, 0 ≤ e2.quantity)
    ∧ ((agentHarvest w i).2 = true →
        ∃ j ∈ w.getEntityAt a.x a.y, ∃ e1 rt q,
          w.findEntity j = some e1 ∧ e1.data = EntityData.res rt q
          ∧ 0 < q
          ∧ (q ≤ 10 → (agentHarvest w i).1.findEntity j = none)
          ∧ (10 < q → ∃ e2, (agentHarvest w i).1.findEntity j = some e2
              ∧ e2.quantity = q - 10)) := by
  have hs := agentHarvest_spec w i a h hnn hfe hagent
  refine ⟨hs.2.2.2.1, ?_⟩
  intro ht
  rcases hs.2.2.2.2 ht with
    ⟨j, hj, e1, rt, q, hje, hd, hq, hminq, hsome, hnone, _, _⟩
  refine ⟨j, hj, e1, rt, q, hje, hd, hq, ?_, ?_⟩
  · intro hle
    apply hnone
    have hm : min 10 q = q := min_eq_right hle
    omega
  · intro hgt
    have hm : min 10 q = 10 := min_eq_left (by omega)
    rcases hsome (by omega) with ⟨e2, he2, hq2⟩
    refine ⟨e2, he2, ?_⟩
    rw [hq2, hm]

/-- Witness for C7: the harvest of the 7-unit deposit succeeds, and the
deposit (quantity 7 ≤ 10) is removed from the world by that harvest. -/
theorem resource_depletion_behavior_witness :
    ∃ j ∈ (applyOps (mkWorld 5 5)
        [Op.add agentA 2 2, Op.add oreSmall 2 2]).getEntityAt
        (mkAgent "agent-a" 2 2 "Alpha").x (mkAgent "agent-a" 2 2 "Alpha").y,
      ∃ e1 rt q,
        (applyOps (mkWorld 5 5)
          [Op.add agentA 2 2, Op.add oreSmall 2 2]).findEntity j = some e1
        ∧ e1.data = EntityData.res rt q
        ∧ 0 < q
        ∧ (q ≤ 10 → (agentHarvest (applyOps (mkWorld 5 5)
            [Op.add agentA 2 2, Op.add oreSmall 2 2])
            "agent-a").1.findEntity j = none)
        ∧ (10 < q → ∃ e2, (agentHarvest (applyOps (mkWorld 5 5)
            [Op.add agentA 2 2, Op.add oreSmall 2 2])
            "agent-a").1.findEntity j = some e2
            ∧ e2.quantity = q - 10) := by
  have h := resource_depletion_behavior
    (applyOps (mkWorld 5 5) [Op.add agentA 2 2, Op.add oreSmall 2 2])
    "agent-a" (mkAgent "agent-a" 2 2 "Alpha")
    (applyOps_preserves_inv (mkWorld_inv 5 5)
      [Op.add agentA 2 2, Op.add oreSmall 2 2])
    (by decide) (by rfl) (by rfl)
  exact h.2 (by rfl)

/-- Counterexample for C7 as stated: an agent shares a cell with a
zero-quantity resource; invoking `harvest` returns `False` and leaves
the whole world — including the depleted resource — in place, instead of
removing it. -/
theorem depleted_resource_not_removed :
    (applyOps (mkWorld 5 5)
        [Op.add agentA 2 2, Op.add oreZero 2 2]).findEntity "ore-zero"
      = some (mkResource "ore-zero" 2 2 "ORE" 0)
    ∧ "ore-zero" ∈ (applyOps (mkWorld 5 5)
        [Op.add agentA 2 2, Op.add oreZero 2 2]).grid 2 2
    ∧ (applyOps (mkWorld 5 5)
        [Op.add agentA 2 2, Op.add oreZero 2 2]).entity_positions "agent-a"
      = some (2, 2)
    ∧ agentHarvest (applyOps (mkWorld 5 5)
        [Op.add agentA 2 2, Op.add oreZero 2 2]) "agent-a"
      = (applyOps (mkWorld 5 5) [Op.add agentA 2 2, Op.add oreZero 2 2],
         false) := by
  refine ⟨rfl, ?_, rfl, rfl⟩
  decide

/-- C6: for every stream of random choices and fresh uuids,
`spawn_resources` is a no-op when the resource count is at or above the
cap; otherwise it inserts exactly
`min(cap - current, number of empty cells)` new resources — never
exceeding the cap — and every entity of the resulting world is either an
old entity or a new resource of kind ORE or FUEL with quantity in
[20, 100], sitting alone (`[id]`) on an in-bounds cell that was empty
before the call (so the chosen cells are distinct and never non-empty). -/
theorem spawn_resources_correct (w : World) (max_resources : Int)
    (ids : Nat → String) (rc rq : Nat → Nat) (rt : Nat → Bool)
    (hinj : ∀ k1 k2, ids k1 = ids k2 → k1 = k2)
    (hfresh : ∀ k, w.findEntity (ids k) = none) :
    ((w.resourceCount : Int) ≥ max_resources →
       spawnResources w max_resources ids rc rq rt = w)
    ∧ (¬ ((w.resourceCount : Int) ≥ max_resources) →
       ((spawnResources w max_resources ids rc rq rt).resourceCount : Int)
         = (w.resourceCount : Int)
           + min (max_resources - (w.resourceCount : Int))
               (w.emptyCells.length : Int))
    ∧ (¬ ((w.resourceCount : Int) ≥ max_resources) →
       ((spawnResources w max_resources ids rc rq rt).resourceCount : Int)
         ≤ max_resources)
    ∧ (∀ e2 ∈ (spawnResources w max_resources ids rc rq rt).entities,
        e2 ∈ w.entities
        ∨ (∃ m, e2.id = ids m)
          ∧ (∃ qn : Int, (e2.data = EntityData.res "ORE" qn
              ∨ e2.data = EntityData.res "FUEL" qn) ∧ 20 ≤ qn ∧ qn ≤ 100)
          ∧ w.isValidPosition e2.x e2.y = true
          ∧ w.grid e2.x e2.y = []
          ∧ (spawnResources w max_resources ids rc rq rt).grid e2.x e2.y
              = [e2.id]) := by
  have hchar : spawnResources w max_resources ids rc rq rt
      = if ((w.resourceCount : Int) ≥ max_resources) then w
        else if w.emptyCells.isEmpty = true then w
        else spawnLoop ids rc rq rt 0 w w.emptyCells
          (min (max_resources - (w.resourceCount : Int))
            (w.emptyCells.length : Int)).toNat := rfl
  by_cases hge : (w.resourceCount : Int) ≥ max_resources
  · rw [hchar, if_pos hge]
    exact ⟨fun _ => rfl, fun hc => absurd hge hc, fun hc => absurd hge hc,
      fun e2 he2 => Or.inl he2⟩
  · rw [hchar, if_neg hge]
    by_cases hemp : w.emptyCells.isEmpty = true
    · rw [if_pos hemp]
      have hlen0 : w.emptyCells.length = 0 := by
        rw [List.isEmpty_iff] at hemp
        rw [hemp]
        rfl
      refine ⟨fun hc => absurd hc hge, ?_, ?_, fun e2 he2 => Or.inl he2⟩
      · intro _
        rw [hlen0]
        have hm : min (max_resources - (w.resourceCount : Int))
            ((0 : Nat) : Int) = 0 := by
          rw [min_eq_right]
          · rfl
          · push_cast
            omega
        push_cast
        push_cast at hm
        omega
      · intro _
        omega
    · rw [if_neg hemp]
      have hn0 : (0 : Int) ≤ min (max_resources - (w.resourceCount : Int))
          (w.emptyCells.length : Int) := by
        apply le_min
        · omega
        · positivity
      have hlen : (min (max_resources - (w.resourceCount : Int))
          (w.emptyCells.length : Int)).toNat ≤ w.emptyCells.length := by
        rw [Int.toNat_le]
        exact min_le_right _ _
      rcases spawnLoop_spec ids rc rq rt hinj
        (min (max_resources - (w.resourceCount : Int))
          (w.emptyCells.length : Int)).toNat 0 w w.emptyCells
        (fun c hc => mem_emptyCells w c hc)
        (emptyCells_nodup w)
        (fun m _ => hfresh m) hlen with ⟨hcount, _, hmem⟩
      have hcast : (((min (max_resources - (w.resourceCount : Int))
          (w.emptyCells.length : Int)).toNat : Nat) : Int)
          = min (max_resources - (w.resourceCount : Int))
              (w.emptyCells.length : Int) := Int.toNat_of_nonneg hn0
      refine ⟨fun hc => absurd hc hge, ?_, ?_, ?_⟩
      · intro _
        rw [hcount]
        push_cast
        rw [hcast]
      · intro _
        rw [hcount]
        push_cast
        rw [hcast]
        have hle : min (max_resources - (w.resourceCount : Int))
            (w.emptyCells.length : Int)
            ≤ max_resources - (w.resourceCount : Int) := min_le_left _ _
        omega
      · intro e2 he2
        rcases hmem e2 he2 with hold | ⟨m, _, _, hid2, hqn, hv2, hg2, hres2⟩
        · exact Or.inl hold
        · exact Or.inr ⟨⟨m, hid2⟩, hqn, hv2, hg2, hres2⟩

/-- Witness for C6: a 3×3 world holding one agent (zero resources, eight
empty cells) with cap 2: exactly two resources are spawned. -/
theorem spawn_resources_correct_witness :
    (((spawnResources (applyOps (mkWorld 3 3) [Op.add agentA 1 1]) 2
        sampleIds (fun _ => 0) (fun _ => 0)
        (fun _ => true)).resourceCount : Int))
      = (((applyOps (mkWorld 3 3) [Op.add agentA 1 1]).resourceCount : Int))
        + min (2 - (((applyOps (mkWorld 3 3)
              [Op.add agentA 1 1]).resourceCount : Int)))
            (((applyOps (mkWorld 3 3)
              [Op.add agentA 1 1]).emptyCells.length : Int)) := by
  have hinj : ∀ k1 k2, sampleIds k1 = sampleIds k2 → k1 = k2 := by
    intro k1 k2 hk
    have hdata := congrArg String.data hk
    have hlen := congrArg List.length hdata
    simpa [sampleIds] using hlen
  have hfresh : ∀ k, (applyOps (mkWorld 3 3)
      [Op.add agentA 1 1]).findEntity (sampleIds k) = none := by
    intro k
    rw [findEntity_none_iff]
    intro e he hc
    have he2 : e ∈ [mkAgent "agent-a" 1 1 "Alpha"] := he
    have he3 : e = mkAgent "agent-a" 1 1 "Alpha" := by simpa using he2
    subst he3
    have hc2 : "agent-a" = sampleIds k := hc
    have hk : k = 7 := by
      have hlen := congrArg (fun t => t.data.length) hc2
      simp [sampleIds] at hlen
      omega
    subst hk
    exact absurd hc2 (by decide)
  have h := spawn_resources_correct (applyOps (mkWorld 3 3)
      [Op.add agentA 1 1]) 2 sampleIds (fun _ => 0) (fun _ => 0)
      (fun _ => true) hinj hfresh
  exact h.2.1 (by decide)

/-- Counterexample for C2 as stated: two connections register on a fresh
5×5 world; both agents end up on the same cell (2, 2) — their positions
do not differ. -/
theorem register_clients_collide :
    ((registerClient ((registerClient (mkWorld 5 5) "agent-a" 0).1)
        "agent-b" 1).1).entity_positions "agent-a" = some (2, 2)
    ∧ ((registerClient ((registerClient (mkWorld 5 5) "agent-a" 0).1)
        "agent-b" 1).1).entity_positions "agent-b" = some (2, 2) :=
  ⟨rfl, rfl⟩

/-- C2 (amended): `register_client` always spawns at the fixed centre
cell (`width // 2`, `height // 2`) and `add_entity` performs no occupancy
check, so after two registrations with distinct fresh ids both agents are
recorded at the same centre cell. -/
theorem register_clients_same_cell (w : World) (id1 id2 : String)
    (n1 n2 : Nat) (hw : 0 < w.width) (hh : 0 < w.height)
    (hne : ¬ id1 = id2) (h1 : w.findEntity id1 = none)
    (h2 : w.findEntity id2 = none) :
    ((registerClient ((registerClient w id1 n1).1) id2 n2).1).entity_positions
        id1 = some (w.width.fdiv 2, w.height.fdiv 2)
    ∧ ((registerClient ((registerClient w id1 n1).1) id2 n2).1).entity_positions
        id2 = some (w.width.fdiv 2, w.height.fdiv 2) := by
  have hreg : ∀ (w0 : World) (idx : String) (n : Nat),
      (registerClient w0 idx n).1
      = (w0.addEntity (mkAgent idx (w0.width.fdiv 2) (w0.height.fdiv 2)
          ("RemoteAgent_" ++ toString (n + 1)))
         (w0.width.fdiv 2) (w0.height.fdiv 2)).1 := fun _ _ _ => rfl
  have hcv : w.isValidPosition (w.width.fdiv 2) (w.height.fdiv 2) = true := by
    unfold World.isValidPosition
    rw [Int.fdiv_eq_ediv _ (by norm_num : (0 : Int) ≤ 2),
      Int.fdiv_eq_ediv _ (by norm_num : (0 : Int) ≤ 2)]
    simp only [decide_eq_true_eq]
    omega
  have hadd1 := addEntity_succ w
    (mkAgent id1 (w.width.fdiv 2) (w.height.fdiv 2)
      ("RemoteAgent_" ++ toString (n1 + 1)))
    (w.width.fdiv 2) (w.height.fdiv 2) hcv h1
  have hw1w : (registerClient w id1 n1).1.width = w.width := by
    rw [hreg w id1 n1, hadd1]
  have hw1h : (registerClient w id1 n1).1.height = w.height := by
    rw [hreg w id1 n1, hadd1]
  have hfind1 : (registerClient w id1 n1).1.findEntity id2 = none := by
    rw [hreg w id1 n1, hadd1]
    show ((w.entities ++ [(mkAgent id1 (w.width.fdiv 2) (w.height.fdiv 2)
        ("RemoteAgent_" ++ toString (n1 + 1))).moveTo
        (w.width.fdiv 2) (w.height.fdiv 2)]).find?
      (fun e => e.id = id2)) = none
    rw [List.find?_append,
      show w.entities.find? (fun e => e.id = id2) = none from h2]
    simp only [Option.none_or]
    rw [List.find?_eq_none]
    intro e' he'
    have he2 : e' = (mkAgent id1 (w.width.fdiv 2) (w.height.fdiv 2)
        ("RemoteAgent_" ++ toString (n1 + 1))).moveTo
        (w.width.fdiv 2) (w.height.fdiv 2) := by simpa using he'
    subst he2
    simp only [decide_eq_true_eq]
    exact fun hc => hne hc
  have hval1 : (registerClient w id1 n1).1.isValidPosition
      (w.width.fdiv 2) (w.height.fdiv 2) = true := by
    rw [hreg w id1 n1, hadd1]
    exact hcv
  have hreg2 : (registerClient ((registerClient w id1 n1).1) id2 n2).1
      = ((registerClient w id1 n1).1.addEntity
          (mkAgent id2 (w.width.fdiv 2) (w.height.fdiv 2)
            ("RemoteAgent_" ++ toString (n2 + 1)))
          (w.width.fdiv 2) (w.height.fdiv 2)).1 := by
    rw [hreg ((registerClient w id1 n1).1) id2 n2, hw1w, hw1h]
  have hadd2 := addEntity_succ ((registerClient w id1 n1).1)
    (mkAgent id2 (w.width.fdiv 2) (w.height.fdiv 2)
      ("RemoteAgent_" ++ toString (n2 + 1)))
    (w.width.fdiv 2) (w.height.fdiv 2) hval1 hfind1
  constructor
  · rw [hreg2, hadd2]
    show (if id1 = id2 then some (w.width.fdiv 2, w.height.fdiv 2)
          else (registerClient w id1 n1).1.entity_positions id1)
      = some (w.width.fdiv 2, w.height.fdiv 2)
    rw [if_neg hne, hreg w id1 n1, hadd1]
    show (if id1 = id1 then some (w.width.fdiv 2, w.height.fdiv 2)
          else w.entity_positions id1)
      = some (w.width.fdiv 2, w.height.fdiv 2)
    rw [if_pos rfl]
  · rw [hreg2, hadd2]
    show (if id2 = id2 then some (w.width.fdiv 2, w.height.fdiv 2)
          else (registerClient w id1 n1).1.entity_positions id2)
      = some (w.width.fdiv 2, w.height.fdiv 2)
    rw [if_pos rfl]

/-- Witness for C2's amended claim on a fresh 7×9 world. -/
theorem register_clients_same_cell_witness :
    ((registerClient ((registerClient (mkWorld 7 9) "agent-a" 0).1)
        "agent-b" 1).1).entity_positions "agent-a"
      = some ((7 : Int).fdiv 2, (9 : Int).fdiv 2)
    ∧ ((registerClient ((registerClient (mkWorld 7 9) "agent-a" 0).1)
        "agent-b" 1).1).entity_positions "agent-b"
      = some ((7 : Int).fdiv 2, (9 : Int).fdiv 2) :=
  register_clients_same_cell (mkWorld 7 9) "agent-a" "agent-b" 0 1
    (by norm_num [mkWorld]) (by norm_num [mkWorld]) (by decide) rfl rfl

end Proxiverse
